import Mathlib

/-!
# Prosthetic hand controller (`src/fuel_gauge.cpp`)

A shallow embedding of the Arduino sketch: the global variables become the
fields of `HandState`, every function of the sketch becomes a function on
`HandState`, and the calls into the environment (`Servo::write`, `delay`,
`Serial.print`, the battery notification) are recorded, in program order, in
the `trace` field.  `int` values are integers wrapped to 32 bits where the
program does arithmetic on them; `unsigned long` values are naturals reduced
modulo `2^32`.

The sketch evaluates two expressions in floating point.  Their integer results
depend on IEEE rounding, so they are taken as a parameter (`FloatOps`): a
theorem below holds for every choice of these two functions, unless it states
what it assumes of them.  The two theorems on the values of these expressions
read them over the rationals with a rounding function after each operation
(`interpRounded`, `centivoltsRounded`) and state what they assume of the
rounding.
-/

namespace FuelGauge

/-! ## Constants -/

/-- Arduino `HIGH`. -/
def HIGH : Int := 1
/-- Arduino `LOW`. -/
def LOW : Int := 0

def DEFAULT_RELAX_T : Int := 180
def DEFAULT_RELAX_I : Int := 180
def DEFAULT_RELAX_F : Int := 180

def DEFAULT_PINCH_T : Int := 30
def DEFAULT_PINCH_I : Int := 40
def DEFAULT_PINCH_F : Int := 120

def DEFAULT_GRASP_T : Int := 0
def DEFAULT_GRASP_I : Int := 60
def DEFAULT_GRASP_F : Int := 45

def DEFAULT_POINT_T : Int := 120
def DEFAULT_POINT_I : Int := 180
def DEFAULT_POINT_F : Int := 0

def MOVE_STEPS : Int := 25
def MOVE_DURATION_MS : Int := 500

/-! ## Data model -/

/-- Source: `enum Mode { RELAX, PINCH, GRASP, POINTING }`. -/
inductive Mode where
  | RELAX
  | PINCH
  | GRASP
  | POINTING
  deriving DecidableEq, Repr

/-- The three `Servo` objects. -/
inductive Servo where
  | servoThumb
  | servoIndex
  | servoFingers
  deriving DecidableEq, Repr

/-- One call into the environment. -/
inductive Effect where
  /-- Source: `servo.write(angle)` -/
  | write (servo : Servo) (angle : Int)
  /-- Source: `delay(ms)` -/
  | delay (ms : Int)
  /-- Source: `Serial.print(text)` -/
  | print (text : String)
  /-- Source: `Serial.println(text)` -/
  | println (text : String)
  /-- Source: `Serial.print(n)` for an `int` -/
  | printInt (n : Int)
  /-- Source: `Serial.println(n)` for an `int` -/
  | printlnInt (n : Int)
  /-- Source: `pBatteryChar->setValue(payload); pBatteryChar->notify()` -/
  | notify (payload : String)
  deriving DecidableEq, Repr

/-- The two floating-point expressions of the sketch, as functions of the
integers they are computed from. -/
structure FloatOps where
  /-- The `int` that `angle + (target - angle) * p` is converted to, where
  `float p = (float)s / steps` (lines 298-302), as `interp angle target s steps`. -/
  interp : Int → Int → Int → Int → Int
  /-- The value of `(int)(voltage * 100)`, where
  `float voltage = (raw * 3.3) / 4095.0` (lines 366 and 369), as `centivolts raw`. -/
  centivolts : Int → Int

/-- The two expressions read over the rationals, with no rounding error, and
truncated toward zero as the conversion to `int` does. -/
def exactOps : FloatOps where
  interp := fun angle target s steps => Int.tdiv (angle * steps + (target - angle) * s) steps
  centivolts := fun raw => Int.tdiv (raw * 330) 4095

/-- The global variables of the sketch, with the trace of environment calls. -/
structure HandState where
  currentMode : Mode
  angleThumb : Int
  angleIndex : Int
  angleFingers : Int
  targetThumb : Int
  targetIndex : Int
  targetFingers : Int
  prevRelaxState : Int
  prevPinchState : Int
  prevGraspState : Int
  prevPointState : Int
  prevIncState : Int
  prevDecState : Int
  deviceConnected : Bool
  lastBatteryUpdate : Nat
  /-- Source: `pBatteryChar != nullptr` -/
  batteryCharSet : Bool
  trace : List Effect
  deriving DecidableEq, Repr

/-- What one pass of `loop` reads from the environment. -/
structure Inputs where
  /-- Source: `digitalRead(BTN_RELAX)` -/
  curRelax : Int
  /-- Source: `digitalRead(BTN_PINCH)` -/
  curPinch : Int
  /-- Source: `digitalRead(BTN_GRASP)` -/
  curGrasp : Int
  /-- Source: `digitalRead(BTN_POINT)` -/
  curPoint : Int
  /-- Source: `digitalRead(BTN_INC)` -/
  curInc : Int
  /-- Source: `digitalRead(BTN_DEC)` -/
  curDec : Int
  /-- Source: `millis()` -/
  now : Nat
  /-- Source: `analogRead(BATTERY_PIN)` -/
  raw : Int
  deriving DecidableEq, Repr

/-! ## Machine arithmetic -/

/-- Reduction of an integer to the range of a 32-bit `int`. -/
def wrapInt32 (x : Int) : Int := (x + 2147483648) % 4294967296 - 2147483648

/-- Subtraction of two `unsigned long` values. -/
def subU32 (a b : Nat) : Nat := (a % 4294967296 + 4294967296 - b % 4294967296) % 4294967296

/-! ## The functions of the sketch -/

/-- Appends one environment call to the trace. -/
def emit (e : Effect) (st : HandState) : HandState :=
  { st with trace := st.trace ++ [e] }

/-- Source: `int clampAngle(int a)` -/
def clampAngle (a : Int) : Int :=
  if a < 0 then 0
  else if a > 180 then 180
  else a

/-- The text `printStatus` prints for a mode. -/
def modeName : Mode → String
  | Mode.RELAX => "RELAX"
  | Mode.PINCH => "PINCH"
  | Mode.GRASP => "GRASP"
  | Mode.POINTING => "POINTING"

/-- Source: `void printStatus()` -/
def printStatus (st : HandState) : HandState :=
  { st with trace := st.trace ++
      [ Effect.print "Mode = ",
        Effect.print (modeName st.currentMode),
        Effect.print " | Angles = ",
        Effect.printInt st.angleThumb, Effect.print ",",
        Effect.printInt st.angleIndex, Effect.print ",",
        Effect.printlnInt st.angleFingers ] }

/-- The body of the `for` loop of `moveAllSmooth` at step `s`. -/
def moveStep (fp : FloatOps) (st : HandState) (sleepTime : Int) (s : Nat) : List Effect :=
  [ Effect.write Servo.servoThumb (fp.interp st.angleThumb st.targetThumb s MOVE_STEPS),
    Effect.write Servo.servoIndex (fp.interp st.angleIndex st.targetIndex s MOVE_STEPS),
    Effect.write Servo.servoFingers (fp.interp st.angleFingers st.targetFingers s MOVE_STEPS),
    Effect.delay sleepTime ]

/-- Source: `void moveAllSmooth(int durationMs)`: the loop runs for `s = 1, ..., steps`;
the angle variables are not assigned inside it. -/
def moveAllSmooth (fp : FloatOps) (durationMs : Int) (st : HandState) : HandState :=
  let steps := MOVE_STEPS
  let sleepTime := Int.tdiv durationMs steps
  let loopTrace := (List.range' 1 steps.toNat).flatMap (moveStep fp st sleepTime)
  { st with
    trace := st.trace ++ loopTrace ++
      [ Effect.write Servo.servoThumb st.targetThumb,
        Effect.write Servo.servoIndex st.targetIndex,
        Effect.write Servo.servoFingers st.targetFingers ]
    angleThumb := st.targetThumb
    angleIndex := st.targetIndex
    angleFingers := st.targetFingers }

/-- Source: `void setMode(Mode m)` -/
def setMode (fp : FloatOps) (m : Mode) (st : HandState) : HandState :=
  let st := { st with currentMode := m }
  let st :=
    match m with
    | Mode.RELAX =>
      let st := emit (Effect.println "Mode: RELAX") st
      moveAllSmooth fp 400
        { st with targetThumb := DEFAULT_RELAX_T, targetIndex := DEFAULT_RELAX_I,
                  targetFingers := DEFAULT_RELAX_F }
    | Mode.PINCH =>
      let st := emit (Effect.println "Mode: PINCH") st
      moveAllSmooth fp MOVE_DURATION_MS
        { st with targetThumb := DEFAULT_PINCH_T, targetIndex := DEFAULT_PINCH_I,
                  targetFingers := DEFAULT_PINCH_F }
    | Mode.GRASP =>
      let st := emit (Effect.println "Mode: GRASP") st
      moveAllSmooth fp MOVE_DURATION_MS
        { st with targetThumb := DEFAULT_GRASP_T, targetIndex := DEFAULT_GRASP_I,
                  targetFingers := DEFAULT_GRASP_F }
    | Mode.POINTING =>
      let st := emit (Effect.println "Mode: POINTING") st
      moveAllSmooth fp MOVE_DURATION_MS
        { st with targetThumb := DEFAULT_POINT_T, targetIndex := DEFAULT_POINT_I,
                  targetFingers := DEFAULT_POINT_F }
  printStatus st

/-- Source: `void adjustAnglesBy(int delta)` -/
def adjustAnglesBy (fp : FloatOps) (delta : Int) (st : HandState) : HandState :=
  let st :=
    if st.currentMode = Mode.GRASP then
      { st with
        targetThumb := DEFAULT_GRASP_T
        targetIndex := clampAngle (wrapInt32 (st.targetIndex + delta))
        targetFingers := clampAngle (wrapInt32 (st.targetFingers + delta)) }
    else
      { st with
        targetThumb := clampAngle (wrapInt32 (st.targetThumb + delta))
        targetIndex := clampAngle (wrapInt32 (st.targetIndex + delta))
        targetFingers := clampAngle (wrapInt32 (st.targetFingers + delta)) }
  printStatus (moveAllSmooth fp MOVE_DURATION_MS st)

/-- Source: `void handleBleCommand(const String& cmd)` -/
def handleBleCommand (fp : FloatOps) (cmd : String) (st : HandState) : HandState :=
  if cmd = "RELAX" then setMode fp Mode.RELAX st
  else if cmd = "PINCH" then setMode fp Mode.PINCH st
  else if cmd = "GRASP" then setMode fp Mode.GRASP st
  else if cmd = "POINTING" then setMode fp Mode.POINTING st
  else if cmd = "INC" then
    if st.currentMode ≠ Mode.RELAX then adjustAnglesBy fp 25 st else st
  else if cmd = "DEC" then
    if st.currentMode ≠ Mode.RELAX then adjustAnglesBy fp (-25) st else st
  else if cmd = "EMERGENCY_STOP" then
    emit (Effect.println "⛔ EMERGENCY STOP (no movement)") st
  else
    emit (Effect.println cmd) (emit (Effect.print "❓ Unknown BLE cmd: ") st)

/-- Arduino `long map(long x, long in_min, long in_max, long out_min, long out_max)`:
`(x - in_min) * (out_max - out_min) / (in_max - in_min) + out_min` in 32-bit
arithmetic, the division truncating toward zero. -/
def arduinoMap (x in_min in_max out_min out_max : Int) : Int :=
  let run := wrapInt32 (in_max - in_min)
  let rise := wrapInt32 (out_max - out_min)
  let delta := wrapInt32 (x - in_min)
  wrapInt32 (wrapInt32 (Int.tdiv (wrapInt32 (delta * rise)) run) + out_min)

/-- Source: `int readBatteryPercent()`, on the sample `raw` that `analogRead` returns. -/
def readBatteryPercent (fp : FloatOps) (raw : Int) : Int :=
  let percent := arduinoMap (fp.centivolts raw) 330 420 0 100
  let percent := if percent < 0 then 0 else percent
  let percent := if percent > 100 then 100 else percent
  percent

/-- Source: `void sendBattery()` -/
def sendBattery (fp : FloatOps) (raw : Int) (st : HandState) : HandState :=
  if !st.deviceConnected || !st.batteryCharSet then st
  else
    let percent := readBatteryPercent fp raw
    let data := "BAT:" ++ toString percent
    emit (Effect.notify data)
      (emit (Effect.println data) (emit (Effect.print "🔋 Sending battery: ") st))

/-- Source: `void loop()`: one pass. -/
def loop (fp : FloatOps) (inp : Inputs) (st : HandState) : HandState :=
  let st :=
    if st.prevRelaxState = HIGH ∧ inp.curRelax = LOW then
      emit (Effect.delay 150) (setMode fp Mode.RELAX st) else st
  let st :=
    if st.prevPinchState = HIGH ∧ inp.curPinch = LOW then
      emit (Effect.delay 150) (setMode fp Mode.PINCH st) else st
  let st :=
    if st.prevGraspState = HIGH ∧ inp.curGrasp = LOW then
      emit (Effect.delay 150) (setMode fp Mode.GRASP st) else st
  let st :=
    if st.prevPointState = HIGH ∧ inp.curPoint = LOW then
      emit (Effect.delay 150) (setMode fp Mode.POINTING st) else st
  let st :=
    if st.prevIncState = HIGH ∧ inp.curInc = LOW then
      emit (Effect.delay 150)
        (if st.currentMode ≠ Mode.RELAX then adjustAnglesBy fp 25 st else st)
    else st
  let st :=
    if st.prevDecState = HIGH ∧ inp.curDec = LOW then
      emit (Effect.delay 150)
        (if st.currentMode ≠ Mode.RELAX then adjustAnglesBy fp (-25) st else st)
    else st
  let st :=
    { st with
      prevRelaxState := inp.curRelax
      prevPinchState := inp.curPinch
      prevGraspState := inp.curGrasp
      prevPointState := inp.curPoint
      prevIncState := inp.curInc
      prevDecState := inp.curDec }
  let st :=
    if st.deviceConnected then
      if subU32 inp.now st.lastBatteryUpdate > 5000 then
        sendBattery fp inp.raw { st with lastBatteryUpdate := inp.now % 4294967296 }
      else st
    else st
  emit (Effect.delay 10) st

/-- The state `setup()` leaves, given the six button samples it reads. The
globals it does not assign keep their initialisers (`currentMode = RELAX`,
`deviceConnected = false`, `lastBatteryUpdate = 0`). -/
def setup (relax pinch grasp point inc dec : Int) : HandState :=
  printStatus
    { currentMode := Mode.RELAX
      angleThumb := DEFAULT_RELAX_T
      angleIndex := DEFAULT_RELAX_I
      angleFingers := DEFAULT_RELAX_F
      targetThumb := DEFAULT_RELAX_T
      targetIndex := DEFAULT_RELAX_I
      targetFingers := DEFAULT_RELAX_F
      prevRelaxState := relax
      prevPinchState := pinch
      prevGraspState := grasp
      prevPointState := point
      prevIncState := inc
      prevDecState := dec
      deviceConnected := false
      lastBatteryUpdate := 0
      batteryCharSet := true
      trace :=
        [ Effect.delay 100,
          Effect.write Servo.servoThumb DEFAULT_RELAX_T,
          Effect.write Servo.servoIndex DEFAULT_RELAX_I,
          Effect.write Servo.servoFingers DEFAULT_RELAX_F,
          Effect.println "🔊 BLE Advertising started: Prosthetic ESP32 Hand" ] }

/-! ## Observations on traces -/

/-- The angles written to one servo, in program order. -/
def servoWrites (sv : Servo) (tr : List Effect) : List Int :=
  tr.filterMap fun e =>
    match e with
    | Effect.write s a => if s = sv then some a else none
    | _ => none

/-- The last angle written to one servo. -/
def lastWrite (sv : Servo) (tr : List Effect) : Option Int :=
  (servoWrites sv tr).getLast?

/-- The current posture (thumb, index, fingers). -/
def currentPosture (st : HandState) : Int × Int × Int :=
  (st.angleThumb, st.angleIndex, st.angleFingers)

/-- The target posture (thumb, index, fingers). -/
def targetPosture (st : HandState) : Int × Int × Int :=
  (st.targetThumb, st.targetIndex, st.targetFingers)

/-- A state at rest in mode `m` with current and target posture `(t, i, f)`:
no button pressed, no peer connected, nothing traced yet. -/
def atRest (m : Mode) (t i f : Int) : HandState :=
  { currentMode := m
    angleThumb := t
    angleIndex := i
    angleFingers := f
    targetThumb := t
    targetIndex := i
    targetFingers := f
    prevRelaxState := HIGH
    prevPinchState := HIGH
    prevGraspState := HIGH
    prevPointState := HIGH
    prevIncState := HIGH
    prevDecState := HIGH
    deviceConnected := false
    lastBatteryUpdate := 0
    batteryCharSet := true
    trace := [] }

/-- The samples of a pass in which no button is pressed, at clock value 0. -/
def idleInputs : Inputs :=
  { curRelax := HIGH, curPinch := HIGH, curGrasp := HIGH, curPoint := HIGH,
    curInc := HIGH, curDec := HIGH, now := 0, raw := 0 }

/-- Consecutive calls `adjustAnglesBy(d)` for the `d` of `deltas`, in order. -/
def adjustMany (fp : FloatOps) (deltas : List Int) (st : HandState) : HandState :=
  deltas.foldl (fun acc d => adjustAnglesBy fp d acc) st

/-! ## Observations on button handling -/

/-- The line `setMode` prints when it enters a mode. -/
def modeBanner : Mode → String
  | Mode.RELAX => "Mode: RELAX"
  | Mode.PINCH => "Mode: PINCH"
  | Mode.GRASP => "Mode: GRASP"
  | Mode.POINTING => "Mode: POINTING"

/-- How many times the banner of mode `m` was printed. -/
def announcements (m : Mode) (tr : List Effect) : Nat :=
  tr.count (Effect.println (modeBanner m))

/-- The six buttons. -/
inductive Button where
  | BTN_RELAX
  | BTN_PINCH
  | BTN_GRASP
  | BTN_POINT
  | BTN_INC
  | BTN_DEC
  deriving DecidableEq, Repr

/-- The sample of a button kept from the previous pass. -/
def prevState (b : Button) (st : HandState) : Int :=
  match b with
  | Button.BTN_RELAX => st.prevRelaxState
  | Button.BTN_PINCH => st.prevPinchState
  | Button.BTN_GRASP => st.prevGraspState
  | Button.BTN_POINT => st.prevPointState
  | Button.BTN_INC => st.prevIncState
  | Button.BTN_DEC => st.prevDecState

/-- The sample of a button read in a pass. -/
def curSample (b : Button) (inp : Inputs) : Int :=
  match b with
  | Button.BTN_RELAX => inp.curRelax
  | Button.BTN_PINCH => inp.curPinch
  | Button.BTN_GRASP => inp.curGrasp
  | Button.BTN_POINT => inp.curPoint
  | Button.BTN_INC => inp.curInc
  | Button.BTN_DEC => inp.curDec

/-- The button that selects a mode. -/
def modeButton : Mode → Button
  | Mode.RELAX => Button.BTN_RELAX
  | Mode.PINCH => Button.BTN_PINCH
  | Mode.GRASP => Button.BTN_GRASP
  | Mode.POINTING => Button.BTN_POINT

/-- Consecutive passes of `loop`, one for each element of `inps`, in order. -/
def runLoop (fp : FloatOps) : List Inputs → HandState → HandState
  | [], st => st
  | inp :: rest, st => runLoop fp rest (loop fp inp st)

/-- The six stored button samples. -/
def buttonStates (st : HandState) : Int × Int × Int × Int × Int × Int :=
  (st.prevRelaxState, st.prevPinchState, st.prevGraspState, st.prevPointState,
    st.prevIncState, st.prevDecState)

/-! ## Callbacks and runs -/

/-- Source: `void onConnect(BLEServer* server)` of `MyServerCallbacks`. -/
def onConnect (st : HandState) : HandState :=
  emit (Effect.println "✅ BLE device connected") { st with deviceConnected := true }

/-- Source: `void onDisconnect(BLEServer* server)` of `MyServerCallbacks`; restarting
the advertising touches none of the globals. -/
def onDisconnect (st : HandState) : HandState :=
  emit (Effect.println "❌ BLE device disconnected") { st with deviceConnected := false }

/-- C `isspace` in the default locale: space, `\t`, `\n`, `\v`, `\f`, `\r`. -/
def isspace (c : Char) : Bool :=
  c = Char.ofNat 32 || c = Char.ofNat 9 || c = Char.ofNat 10 || c = Char.ofNat 11 ||
    c = Char.ofNat 12 || c = Char.ofNat 13

/-- Arduino `String::trim()`: the text between the first character that is not
a space and the last one that is not a space. -/
def trim (s : String) : String :=
  String.mk ((s.data.dropWhile isspace).reverse.dropWhile isspace).reverse

/-- Source: `void onWrite(BLECharacteristic* characteristic)` of `MyCommandCallbacks`,
on the text `value` of `characteristic->getValue().c_str()`. -/
def onWrite (fp : FloatOps) (value : String) (st : HandState) : HandState :=
  let cmd := trim value
  if cmd.length = 0 then st
  else
    handleBleCommand fp cmd
      (emit (Effect.println cmd) (emit (Effect.print "📩 BLE command received: ") st))

/-- What can happen to the controller after `setup`: a write to the command
characteristic, a pass of `loop`, a peer connecting or disconnecting. -/
inductive Event where
  | write (value : String)
  | pass (inp : Inputs)
  | connect
  | disconnect
  deriving DecidableEq, Repr

/-- The effect of one event. -/
def step (fp : FloatOps) (ev : Event) (st : HandState) : HandState :=
  match ev with
  | Event.write value => onWrite fp value st
  | Event.pass inp => loop fp inp st
  | Event.connect => onConnect st
  | Event.disconnect => onDisconnect st

/-- The effect of a sequence of events, in order. -/
def run (fp : FloatOps) : List Event → HandState → HandState
  | [], st => st
  | ev :: rest, st => run fp rest (step fp ev st)

/-- The command `cmd` handled `n` times in a row. -/
def repeatCommand (fp : FloatOps) (cmd : String) : Nat → HandState → HandState
  | 0, st => st
  | n + 1, st => handleBleCommand fp cmd (repeatCommand fp cmd n st)

/-- All three current angles and all three target angles lie in [0,180]. -/
def PostureInRange (st : HandState) : Prop :=
  (0 ≤ st.angleThumb ∧ st.angleThumb ≤ 180) ∧
  (0 ≤ st.angleIndex ∧ st.angleIndex ≤ 180) ∧
  (0 ≤ st.angleFingers ∧ st.angleFingers ≤ 180) ∧
  (0 ≤ st.targetThumb ∧ st.targetThumb ≤ 180) ∧
  (0 ≤ st.targetIndex ∧ st.targetIndex ≤ 180) ∧
  (0 ≤ st.targetFingers ∧ st.targetFingers ≤ 180)

instance (st : HandState) : Decidable (PostureInRange st) := by
  unfold PostureInRange
  infer_instance

/-- The battery payloads notified, in program order. -/
def notifications (tr : List Effect) : List String :=
  tr.filterMap fun e =>
    match e with
    | Effect.notify payload => some payload
    | _ => none

/-- The arguments of the `delay` calls, in program order. -/
def delays (tr : List Effect) : List Int :=
  tr.filterMap fun e =>
    match e with
    | Effect.delay ms => some ms
    | _ => none

/-- The part of the state the telemetry reporter reads and writes, with the
payloads notified so far. -/
def telemetryView (st : HandState) : Bool × Nat × Bool × List String :=
  (st.deviceConnected, st.lastBatteryUpdate, st.batteryCharSet, notifications st.trace)

/-- Conversion of a floating-point value to `int`: truncation toward zero. -/
def truncQ (q : ℚ) : Int := Int.tdiv q.num q.den

/-- Lines 298-302: `p = (float)s / steps` rounded by `rdiv`, the product
`(target - angle) * p` rounded by `rmul`, the sum `angle + ...` rounded by `radd`,
and the conversion to `int`. The identity for `rmul` gives the fused
multiply-add. -/
def interpRounded (rdiv rmul radd : ℚ → ℚ) (angle target s steps : Int) : Int :=
  let p := rdiv ((s : ℚ) / (steps : ℚ))
  truncQ (radd ((angle : ℚ) + rmul (((target - angle : Int) : ℚ) * p)))

/-- Lines 366 and 369: `raw * 3.3` in `double` (the constant is `c33`, the product
rounded by `rmulD`), the quotient by `4095.0` rounded by `rdivD`, the conversion
to `float` by `rcvt`, the `float` product with 100 rounded by `rmulF`, and the
conversion to `int`. -/
def centivoltsRounded (c33 : ℚ) (rmulD rdivD rcvt rmulF : ℚ → ℚ) (raw : Int) : Int :=
  let voltage := rcvt (rdivD (rmulD ((raw : ℚ) * c33) / 4095))
  truncQ (rmulF (voltage * 100))

/-- A rounding function that is monotone and exact on the integers from -180 to
180, as IEEE rounding in single or double precision is, and as the identity is. -/
def MonotoneExact (r : ℚ → ℚ) : Prop :=
  Monotone r ∧ ∀ n : Int, -180 ≤ n → n ≤ 180 → r (n : ℚ) = (n : ℚ)

/-- A rounding function that maps 0 to 0 and has relative error at most 1/10000
on the values between 1/10000 and 100000; IEEE rounding in single precision has
relative error at most 2^-24 there, the identity none. -/
def NearlyExact (r : ℚ → ℚ) : Prop :=
  r 0 = 0 ∧ ∀ x : ℚ, 1 / 10000 ≤ x → x ≤ 100000 → |r x - x| ≤ x / 10000

/-- The current angle of a servo. -/
def currentAngle (sv : Servo) (st : HandState) : Int :=
  match sv with
  | Servo.servoThumb => st.angleThumb
  | Servo.servoIndex => st.angleIndex
  | Servo.servoFingers => st.angleFingers

/-- The target angle of a servo. -/
def targetAngle (sv : Servo) (st : HandState) : Int :=
  match sv with
  | Servo.servoThumb => st.targetThumb
  | Servo.servoIndex => st.targetIndex
  | Servo.servoFingers => st.targetFingers

/-- A state at rest in Relax at (180,180,180) whose target has just been set to
the Grasp posture (0,60,45). -/
def graspPending : HandState :=
  { atRest Mode.GRASP 180 180 180 with targetThumb := 0, targetIndex := 60, targetFingers := 45 }

/-! ## Auxiliary lemmas -/

theorem clampAngle_range (a : Int) : 0 ≤ clampAngle a ∧ clampAngle a ≤ 180 := by
  unfold clampAngle
  split_ifs <;> omega

theorem clampAngle_of_range (a : Int) (h0 : 0 ≤ a) (h1 : a ≤ 180) : clampAngle a = a := by
  unfold clampAngle
  split_ifs <;> omega

theorem wrapInt32_of_range (x : Int) (h0 : -2147483648 ≤ x) (h1 : x < 2147483648) :
    wrapInt32 x = x := by
  unfold wrapInt32
  omega

/-! ## Mode controller and motion interpolator -/

/-- C1: for every mode `m` and every prior state, after `setMode(m)` the current
mode is `m` and the target posture (thumb, index, fingers) is the table entry of
`m`: Relax (180,180,180), Pinch (30,40,120), Grasp (0,60,45), Pointing (120,180,0). -/
theorem setMode_sets_mode_and_target (fp : FloatOps) (m : Mode) (st : HandState) :
    (setMode fp m st).currentMode = m ∧
    ((setMode fp m st).targetThumb, (setMode fp m st).targetIndex,
        (setMode fp m st).targetFingers) =
      (match m with
        | Mode.RELAX => ((180 : Int), (180 : Int), (180 : Int))
        | Mode.PINCH => (30, 40, 120)
        | Mode.GRASP => (0, 60, 45)
        | Mode.POINTING => (120, 180, 0)) := by
  cases m <;> exact ⟨rfl, rfl⟩

/-- C2: for every state (so for every start and target posture, in particular
those with all angles in [0,180]) and every `durationMs`, `moveAllSmooth`
returns a state whose current posture equals the target posture, the last angle
written to each servo is that servo's target angle, and the target posture is
the one it was called with. -/
theorem moveAllSmooth_reaches_target (fp : FloatOps) (durationMs : Int) (st : HandState) :
    ((moveAllSmooth fp durationMs st).angleThumb = st.targetThumb ∧
      (moveAllSmooth fp durationMs st).angleIndex = st.targetIndex ∧
      (moveAllSmooth fp durationMs st).angleFingers = st.targetFingers) ∧
    (lastWrite Servo.servoThumb (moveAllSmooth fp durationMs st).trace = some st.targetThumb ∧
      lastWrite Servo.servoIndex (moveAllSmooth fp durationMs st).trace = some st.targetIndex ∧
      lastWrite Servo.servoFingers (moveAllSmooth fp durationMs st).trace
        = some st.targetFingers) ∧
    ((moveAllSmooth fp durationMs st).targetThumb = st.targetThumb ∧
      (moveAllSmooth fp durationMs st).targetIndex = st.targetIndex ∧
      (moveAllSmooth fp durationMs st).targetFingers = st.targetFingers) := by
  refine ⟨⟨rfl, rfl, rfl⟩, ⟨?_, ?_, ?_⟩, ⟨rfl, rfl, rfl⟩⟩ <;>
    simp [lastWrite, servoWrites, moveAllSmooth, List.filterMap_append, List.getLast?_append]

/-- C3 (clamping law): for every integer `delta` and every state whose mode is
Pinch or Pointing, after `adjustAnglesBy(delta)` each of the three target angles
lies in [0,180]. -/
theorem adjustAnglesBy_targets_in_range (fp : FloatOps) (delta : Int) (st : HandState)
    (hmode : st.currentMode = Mode.PINCH ∨ st.currentMode = Mode.POINTING) :
    (0 ≤ (adjustAnglesBy fp delta st).targetThumb ∧
      (adjustAnglesBy fp delta st).targetThumb ≤ 180) ∧
    (0 ≤ (adjustAnglesBy fp delta st).targetIndex ∧
      (adjustAnglesBy fp delta st).targetIndex ≤ 180) ∧
    (0 ≤ (adjustAnglesBy fp delta st).targetFingers ∧
      (adjustAnglesBy fp delta st).targetFingers ≤ 180) := by
  have hg : st.currentMode ≠ Mode.GRASP := by
    rcases hmode with h | h <;> simp [h]
  simp only [adjustAnglesBy, if_neg hg, printStatus, moveAllSmooth]
  exact ⟨clampAngle_range _, clampAngle_range _, clampAngle_range _⟩

theorem adjustAnglesBy_targets_in_range_witness :
    ((atRest Mode.PINCH 30 40 120).currentMode = Mode.PINCH ∨
      (atRest Mode.PINCH 30 40 120).currentMode = Mode.POINTING) ∧
    ((0 ≤ (adjustAnglesBy exactOps 4000000000 (atRest Mode.PINCH 30 40 120)).targetThumb ∧
      (adjustAnglesBy exactOps 4000000000 (atRest Mode.PINCH 30 40 120)).targetThumb ≤ 180) ∧
    (0 ≤ (adjustAnglesBy exactOps 4000000000 (atRest Mode.PINCH 30 40 120)).targetIndex ∧
      (adjustAnglesBy exactOps 4000000000 (atRest Mode.PINCH 30 40 120)).targetIndex ≤ 180) ∧
    (0 ≤ (adjustAnglesBy exactOps 4000000000 (atRest Mode.PINCH 30 40 120)).targetFingers ∧
      (adjustAnglesBy exactOps 4000000000 (atRest Mode.PINCH 30 40 120)).targetFingers ≤ 180)) :=
  ⟨Or.inl rfl,
    adjustAnglesBy_targets_in_range exactOps 4000000000 (atRest Mode.PINCH 30 40 120)
      (Or.inl rfl)⟩

theorem adjustAnglesBy_grasp (fp : FloatOps) (delta : Int) (st : HandState)
    (hmode : st.currentMode = Mode.GRASP) :
    (adjustAnglesBy fp delta st).targetThumb = DEFAULT_GRASP_T ∧
    (adjustAnglesBy fp delta st).currentMode = Mode.GRASP := by
  simp [adjustAnglesBy, hmode, printStatus, moveAllSmooth]

theorem adjustMany_snoc (fp : FloatOps) (deltas : List Int) (d : Int) (st : HandState) :
    adjustMany fp (deltas ++ [d]) st = adjustAnglesBy fp d (adjustMany fp deltas st) := by
  simp [adjustMany, List.foldl_append]

theorem adjustMany_grasp_mode (fp : FloatOps) (deltas : List Int) (st : HandState)
    (hmode : st.currentMode = Mode.GRASP) :
    (adjustMany fp deltas st).currentMode = Mode.GRASP := by
  induction deltas using List.reverseRecOn with
  | nil => simpa [adjustMany] using hmode
  | append_singleton ds d ih =>
    rw [adjustMany_snoc]
    exact (adjustAnglesBy_grasp fp d _ ih).2

/-- C4: in Grasp mode, for every finite sequence of `adjustAnglesBy` calls with
arbitrary deltas, after each call (after the first `k` calls, for every
`1 ≤ k ≤ n`) the thumb target equals the fixed Grasp value 0 and the mode is
still Grasp. -/
theorem grasp_thumb_fixed_under_adjust (fp : FloatOps) (deltas : List Int) (st : HandState)
    (hmode : st.currentMode = Mode.GRASP) (k : Nat) (hk : 1 ≤ k) (hkn : k ≤ deltas.length) :
    (adjustMany fp (deltas.take k) st).targetThumb = 0 ∧
    (adjustMany fp (deltas.take k) st).currentMode = Mode.GRASP := by
  have hlen : (deltas.take k).length = k := by simp [hkn]
  generalize deltas.take k = pre at hlen
  subst hlen
  induction pre using List.reverseRecOn with
  | nil => simp at hk
  | append_singleton ds d _ =>
    rw [adjustMany_snoc]
    exact adjustAnglesBy_grasp fp d _ (adjustMany_grasp_mode fp ds st hmode)

theorem grasp_thumb_fixed_under_adjust_witness :
    (atRest Mode.GRASP 0 60 45).currentMode = Mode.GRASP ∧ 1 ≤ 2 ∧
    2 ≤ [25, -300, 7].length ∧
    (adjustMany exactOps ([25, -300, 7].take 2) (atRest Mode.GRASP 0 60 45)).targetThumb = 0 ∧
    (adjustMany exactOps ([25, -300, 7].take 2) (atRest Mode.GRASP 0 60 45)).currentMode
      = Mode.GRASP :=
  ⟨rfl, by decide, by decide,
    grasp_thumb_fixed_under_adjust exactOps [25, -300, 7] (atRest Mode.GRASP 0 60 45) rfl 2
      (by decide) (by decide)⟩

/-! ## Adjustment requests in Relax -/

/-- C5, as stated, fails: called in the Relax state at rest with posture
(180,180,180), `adjustAnglesBy(-25)` changes the target and the current posture
to (155,155,155) and writes 155 to the thumb servo. -/
theorem adjustAnglesBy_relax_changes_state :
    (atRest Mode.RELAX 180 180 180).currentMode = Mode.RELAX ∧
    targetPosture (atRest Mode.RELAX 180 180 180) = (180, 180, 180) ∧
    currentPosture (atRest Mode.RELAX 180 180 180) = (180, 180, 180) ∧
    servoWrites Servo.servoThumb (atRest Mode.RELAX 180 180 180).trace = [] ∧
    targetPosture (adjustAnglesBy exactOps (-25) (atRest Mode.RELAX 180 180 180))
      = (155, 155, 155) ∧
    currentPosture (adjustAnglesBy exactOps (-25) (atRest Mode.RELAX 180 180 180))
      = (155, 155, 155) ∧
    lastWrite Servo.servoThumb
      (adjustAnglesBy exactOps (-25) (atRest Mode.RELAX 180 180 180)).trace = some 155 := by
  refine ⟨rfl, rfl, rfl, rfl, ?_, ?_, ?_⟩ <;> decide

/-- C5, amended: the no-op in Relax is the guard `if (currentMode != RELAX)` that
precedes every call of `adjustAnglesBy` in the sketch: in a state whose mode is
Relax the guarded call returns the state unchanged, for every delta.
`adjustAnglesBy` has no Relax guard of its own: called in Relax it leaves the
mode Relax, sets each target to `clampAngle(target + delta)` (the sum in 32-bit
arithmetic), makes the current posture equal to that new target, and the last
angle written to each servo is the new target angle. -/
theorem adjustAnglesBy_in_relax (fp : FloatOps) (delta : Int) (st : HandState)
    (hmode : st.currentMode = Mode.RELAX) :
    (if st.currentMode ≠ Mode.RELAX then adjustAnglesBy fp delta st else st) = st ∧
    (adjustAnglesBy fp delta st).currentMode = Mode.RELAX ∧
    targetPosture (adjustAnglesBy fp delta st) =
      (clampAngle (wrapInt32 (st.targetThumb + delta)),
        clampAngle (wrapInt32 (st.targetIndex + delta)),
        clampAngle (wrapInt32 (st.targetFingers + delta))) ∧
    currentPosture (adjustAnglesBy fp delta st) = targetPosture (adjustAnglesBy fp delta st) ∧
    lastWrite Servo.servoThumb (adjustAnglesBy fp delta st).trace
      = some (clampAngle (wrapInt32 (st.targetThumb + delta))) ∧
    lastWrite Servo.servoIndex (adjustAnglesBy fp delta st).trace
      = some (clampAngle (wrapInt32 (st.targetIndex + delta))) ∧
    lastWrite Servo.servoFingers (adjustAnglesBy fp delta st).trace
      = some (clampAngle (wrapInt32 (st.targetFingers + delta))) := by
  have hg : st.currentMode ≠ Mode.GRASP := by simp [hmode]
  refine ⟨by simp [hmode], ?_, ?_, ?_, ?_, ?_, ?_⟩ <;>
    simp [adjustAnglesBy, if_neg hg, hmode, printStatus, moveAllSmooth, targetPosture,
      currentPosture, lastWrite, servoWrites, List.filterMap_append, List.getLast?_append]

theorem adjustAnglesBy_in_relax_witness :
    (atRest Mode.RELAX 180 180 180).currentMode = Mode.RELAX ∧
    (adjustAnglesBy exactOps (-25) (atRest Mode.RELAX 180 180 180)).currentMode
      = Mode.RELAX :=
  ⟨rfl, (adjustAnglesBy_in_relax exactOps (-25) (atRest Mode.RELAX 180 180 180) rfl).2.1⟩

/-- C6: an adjustment request arriving while the mode is Relax is ignored on
both input paths. `handleBleCommand("INC")` and `handleBleCommand("DEC")` return
the state unchanged (mode, postures and trace included); a loop pass with a
high-to-low edge on the Inc or the Dec button and no edge on a mode button
leaves mode, current posture and target posture unchanged and adds no write to
any servo. -/
theorem relax_ignores_adjustment (fp : FloatOps) (inp : Inputs) (st : HandState)
    (hmode : st.currentMode = Mode.RELAX)
    (hRelax : ¬ (st.prevRelaxState = HIGH ∧ inp.curRelax = LOW))
    (hPinch : ¬ (st.prevPinchState = HIGH ∧ inp.curPinch = LOW))
    (hGrasp : ¬ (st.prevGraspState = HIGH ∧ inp.curGrasp = LOW))
    (hPoint : ¬ (st.prevPointState = HIGH ∧ inp.curPoint = LOW))
    (_hedge : (st.prevIncState = HIGH ∧ inp.curInc = LOW) ∨
      (st.prevDecState = HIGH ∧ inp.curDec = LOW)) :
    handleBleCommand fp "INC" st = st ∧
    handleBleCommand fp "DEC" st = st ∧
    (loop fp inp st).currentMode = Mode.RELAX ∧
    currentPosture (loop fp inp st) = currentPosture st ∧
    targetPosture (loop fp inp st) = targetPosture st ∧
    ∀ sv, servoWrites sv (loop fp inp st).trace = servoWrites sv st.trace := by
  refine ⟨?_, ?_, ?_⟩
  · simp [handleBleCommand, hmode]
  · simp [handleBleCommand, hmode]
  · simp only [loop, if_neg hRelax, if_neg hPinch, if_neg hGrasp, if_neg hPoint]
    by_cases hI : st.prevIncState = HIGH ∧ inp.curInc = LOW <;>
      by_cases hD : st.prevDecState = HIGH ∧ inp.curDec = LOW <;>
      by_cases hc : st.deviceConnected = true <;>
      by_cases ht : subU32 inp.now st.lastBatteryUpdate > 5000 <;>
      by_cases hb : st.batteryCharSet = true <;>
      simp [hI, hD, hc, ht, hb, hmode, emit, sendBattery, currentPosture, targetPosture,
        servoWrites, List.filterMap_append]

theorem relax_ignores_adjustment_witness :
    (atRest Mode.RELAX 180 180 180).currentMode = Mode.RELAX ∧
    ((atRest Mode.RELAX 180 180 180).prevIncState = HIGH ∧
      ({ idleInputs with curInc := LOW } : Inputs).curInc = LOW) ∧
    (loop exactOps { idleInputs with curInc := LOW } (atRest Mode.RELAX 180 180 180)).currentMode
      = Mode.RELAX ∧
    targetPosture (loop exactOps { idleInputs with curInc := LOW }
      (atRest Mode.RELAX 180 180 180)) = targetPosture (atRest Mode.RELAX 180 180 180) :=
  have h := relax_ignores_adjustment exactOps { idleInputs with curInc := LOW }
    (atRest Mode.RELAX 180 180 180) rfl (by decide) (by decide) (by decide) (by decide)
    (Or.inl ⟨rfl, rfl⟩)
  ⟨rfl, ⟨rfl, rfl⟩, h.2.2.1, h.2.2.2.2.1⟩

/-! ## Wireless commands -/

/-- C7: for every command string that is none of RELAX, PINCH, GRASP, POINTING,
INC, DEC (compared exactly, so EMERGENCY_STOP and every unknown token are
covered), `handleBleCommand` leaves mode, current posture and target posture
unchanged and adds no write to any servo. -/
theorem handleBleCommand_other_token (fp : FloatOps) (cmd : String) (st : HandState)
    (hRelax : cmd ≠ "RELAX") (hPinch : cmd ≠ "PINCH") (hGrasp : cmd ≠ "GRASP")
    (hPoint : cmd ≠ "POINTING") (hInc : cmd ≠ "INC") (hDec : cmd ≠ "DEC") :
    (handleBleCommand fp cmd st).currentMode = st.currentMode ∧
    currentPosture (handleBleCommand fp cmd st) = currentPosture st ∧
    targetPosture (handleBleCommand fp cmd st) = targetPosture st ∧
    ∀ sv, servoWrites sv (handleBleCommand fp cmd st).trace = servoWrites sv st.trace := by
  simp only [handleBleCommand, if_neg hRelax, if_neg hPinch, if_neg hGrasp, if_neg hPoint,
    if_neg hInc, if_neg hDec]
  by_cases hStop : cmd = "EMERGENCY_STOP" <;>
    simp [hStop, emit, currentPosture, targetPosture, servoWrites, List.filterMap_append]

theorem handleBleCommand_other_token_witness :
    ("EMERGENCY_STOP" ≠ "RELAX" ∧ "relax" ≠ "RELAX" ∧ "GRASP " ≠ "GRASP") ∧
    targetPosture (handleBleCommand exactOps "EMERGENCY_STOP" (atRest Mode.GRASP 0 60 45))
      = targetPosture (atRest Mode.GRASP 0 60 45) ∧
    (handleBleCommand exactOps "relax" (atRest Mode.GRASP 0 60 45)).currentMode
      = (atRest Mode.GRASP 0 60 45).currentMode ∧
    currentPosture (handleBleCommand exactOps "GRASP " (atRest Mode.PINCH 30 40 120))
      = currentPosture (atRest Mode.PINCH 30 40 120) :=
  ⟨⟨by decide, by decide, by decide⟩,
    (handleBleCommand_other_token exactOps "EMERGENCY_STOP" (atRest Mode.GRASP 0 60 45)
      (by decide) (by decide) (by decide) (by decide) (by decide) (by decide)).2.2.1,
    (handleBleCommand_other_token exactOps "relax" (atRest Mode.GRASP 0 60 45)
      (by decide) (by decide) (by decide) (by decide) (by decide) (by decide)).1,
    (handleBleCommand_other_token exactOps "GRASP " (atRest Mode.PINCH 30 40 120)
      (by decide) (by decide) (by decide) (by decide) (by decide) (by decide)).2.1⟩


/-! ## Buttons -/

theorem count_moveLoop (fp : FloatOps) (st : HandState) (sleepTime : Int) (n : Nat) (e : Effect)
    (hw : ∀ sv a, e ≠ Effect.write sv a) (hd : e ≠ Effect.delay sleepTime) :
    List.count e ((List.range' 1 n).flatMap (moveStep fp st sleepTime)) = 0 := by
  rw [List.count_eq_zero]
  intro hmem
  simp only [List.mem_flatMap, moveStep, List.mem_cons, List.mem_singleton] at hmem
  obtain ⟨s, _, h⟩ := hmem
  simp at h
  rcases h with h | h | h | h
  · exact hw _ _ h
  · exact hw _ _ h
  · exact hw _ _ h
  · exact hd h

theorem count_moveAllSmooth (fp : FloatOps) (d : Int) (st : HandState) (e : Effect)
    (hw : ∀ sv a, e ≠ Effect.write sv a) (hd : e ≠ Effect.delay (Int.tdiv d MOVE_STEPS)) :
    List.count e (moveAllSmooth fp d st).trace = List.count e st.trace := by
  have h := count_moveLoop fp st (Int.tdiv d MOVE_STEPS) MOVE_STEPS.toNat e hw hd
  have hw1 := hw Servo.servoThumb st.targetThumb
  have hw2 := hw Servo.servoIndex st.targetIndex
  have hw3 := hw Servo.servoFingers st.targetFingers
  simp [moveAllSmooth, List.count_append, List.count_cons, h, Ne.symm hw1, Ne.symm hw2, Ne.symm hw3]

theorem announcements_setMode (fp : FloatOps) (m m' : Mode) (st : HandState) :
    announcements m' (setMode fp m st).trace
      = announcements m' st.trace + (if m = m' then 1 else 0) := by
  cases m <;> cases m' <;>
    simp [announcements, setMode, printStatus, emit, modeBanner, List.count_append,
      List.count_cons, count_moveAllSmooth]

theorem announcements_adjustAnglesBy (fp : FloatOps) (delta : Int) (m : Mode) (st : HandState) :
    announcements m (adjustAnglesBy fp delta st).trace = announcements m st.trace := by
  unfold adjustAnglesBy
  split_ifs <;>
    simp [announcements, printStatus, List.count_append, List.count_cons, count_moveAllSmooth]

theorem battery_text_ne_banner (p : Int) (m : Mode) : "BAT:" ++ toString p ≠ modeBanner m := by
  intro h
  have h2 := congrArg String.data h
  rw [String.data_append] at h2
  cases m <;> simp [modeBanner] at h2

theorem announcements_sendBattery (fp : FloatOps) (raw : Int) (m : Mode) (st : HandState) :
    announcements m (sendBattery fp raw st).trace = announcements m st.trace := by
  unfold sendBattery
  split_ifs <;>
    simp [announcements, emit, List.count_append, List.count_cons, battery_text_ne_banner]

theorem buttonStates_setMode (fp : FloatOps) (m : Mode) (st : HandState) :
    buttonStates (setMode fp m st) = buttonStates st := by
  cases m <;> rfl

theorem buttonStates_block (c : Prop) [Decidable c] (act : HandState → HandState)
    (st : HandState) (hact : buttonStates (act st) = buttonStates st) :
    buttonStates (if c then emit (Effect.delay 150) (act st) else st) = buttonStates st := by
  split_ifs
  · exact hact
  · rfl

theorem announcements_block (m : Mode) (k : Nat) (c : Prop) [Decidable c]
    (act : HandState → HandState) (st : HandState)
    (hact : announcements m (act st).trace = announcements m st.trace + k) :
    announcements m (if c then emit (Effect.delay 150) (act st) else st).trace
      = announcements m st.trace + (if c then k else 0) := by
  split_ifs
  · rw [← hact]
    simp [announcements, emit, List.count_append, List.count_cons]
  · rfl

theorem guarded_adjust_announcements (fp : FloatOps) (delta : Int) (m : Mode) (st : HandState) :
    announcements m
        (if st.currentMode ≠ Mode.RELAX then adjustAnglesBy fp delta st else st).trace
      = announcements m st.trace + 0 := by
  split_ifs
  · exact announcements_adjustAnglesBy fp delta m st
  · rfl

theorem loop_announcements (fp : FloatOps) (inp : Inputs) (st : HandState) (m : Mode) :
    announcements m (loop fp inp st).trace = announcements m st.trace +
      (if prevState (modeButton m) st = HIGH ∧ curSample (modeButton m) inp = LOW
        then 1 else 0) := by
  unfold loop
  lift_lets
  intro s1 s2 s3 s4 s5 s6 s7 s8
  have b1 : buttonStates s1 = buttonStates st :=
    buttonStates_block _ _ st (buttonStates_setMode fp _ st)
  have b2 : buttonStates s2 = buttonStates s1 :=
    buttonStates_block _ _ s1 (buttonStates_setMode fp _ s1)
  have b3 : buttonStates s3 = buttonStates s2 :=
    buttonStates_block _ _ s2 (buttonStates_setMode fp _ s2)
  have c1 : announcements m s1.trace = _ :=
    announcements_block m _ _ _ st (announcements_setMode fp Mode.RELAX m st)
  have c2 : announcements m s2.trace = _ :=
    announcements_block m _ _ _ s1 (announcements_setMode fp Mode.PINCH m s1)
  have c3 : announcements m s3.trace = _ :=
    announcements_block m _ _ _ s2 (announcements_setMode fp Mode.GRASP m s2)
  have c4 : announcements m s4.trace = _ :=
    announcements_block m _ _ _ s3 (announcements_setMode fp Mode.POINTING m s3)
  have c5 : announcements m s5.trace = _ :=
    announcements_block m _ _
      (fun s => if s.currentMode ≠ Mode.RELAX then adjustAnglesBy fp 25 s else s)
      s4 (guarded_adjust_announcements fp 25 m s4)
  have c6 : announcements m s6.trace = _ :=
    announcements_block m _ _
      (fun s => if s.currentMode ≠ Mode.RELAX then adjustAnglesBy fp (-25) s else s)
      s5 (guarded_adjust_announcements fp (-25) m s5)
  have c8 : announcements m s8.trace = announcements m s6.trace := by
    simp only [s8]
    split_ifs
    · exact announcements_sendBattery fp inp.raw m _
    · rfl
    · rfl
  have c9 : announcements m (emit (Effect.delay 10) s8).trace = announcements m s8.trace := by
    simp [announcements, emit, List.count_append, List.count_cons]
  simp only [buttonStates, Prod.mk.injEq] at b1 b2 b3
  rw [c9, c8, c6, c5, c4, c3, c2, c1]
  simp only [b3.2.2.2.1, b2.2.2.2.1, b2.2.2.1, b1.2.2.2.1, b1.2.2.1, b1.2.1]
  cases m <;> simp [prevState, curSample, modeButton]

theorem clampAngle_eq_max_min (a : Int) : clampAngle a = max 0 (min 180 a) := by
  unfold clampAngle
  split_ifs <;> omega

/-! ## Scenarios over the wireless channel -/

/-- C9: the four mode tokens map onto `setMode`: in every state,
`handleBleCommand` on RELAX, PINCH, GRASP, POINTING returns the state that
`setMode` returns for Relax, Pinch, Grasp, Pointing. The state `setup` leaves
has mode Relax and current = target = (180,180,180), whatever the buttons read;
receiving GRASP there (as in every state) makes the target (0,60,45) and the
current posture (0,60,45). -/
theorem mode_tokens_call_setMode (fp : FloatOps) (st : HandState)
    (relax pinch grasp point inc dec : Int) :
    (handleBleCommand fp "RELAX" st = setMode fp Mode.RELAX st ∧
      handleBleCommand fp "PINCH" st = setMode fp Mode.PINCH st ∧
      handleBleCommand fp "GRASP" st = setMode fp Mode.GRASP st ∧
      handleBleCommand fp "POINTING" st = setMode fp Mode.POINTING st) ∧
    ((setup relax pinch grasp point inc dec).currentMode = Mode.RELAX ∧
      currentPosture (setup relax pinch grasp point inc dec) = (180, 180, 180) ∧
      targetPosture (setup relax pinch grasp point inc dec) = (180, 180, 180)) ∧
    (targetPosture (handleBleCommand fp "GRASP" (setup relax pinch grasp point inc dec))
        = (0, 60, 45) ∧
      currentPosture (handleBleCommand fp "GRASP" (setup relax pinch grasp point inc dec))
        = (0, 60, 45)) ∧
    (targetPosture (handleBleCommand fp "GRASP" st) = (0, 60, 45) ∧
      currentPosture (handleBleCommand fp "GRASP" st) = (0, 60, 45)) := by
  refine ⟨⟨?_, ?_, ?_, ?_⟩, ⟨rfl, rfl, rfl⟩, ⟨?_, ?_⟩, ⟨?_, ?_⟩⟩ <;>
    simp [handleBleCommand] <;> rfl

/-- C10: in Grasp mode with targets `(t, i, f)` (any `int` values for which
`i + 25` and `f + 25` do not overflow), the command INC makes the target
`(0, clamp(i+25), clamp(f+25))`, `clamp` restricting to [0,180], and the current
posture equal to it. In particular from Grasp with target (0,60,45), INC makes
the target (0,85,70), thumb unchanged, and the current posture (0,85,70). -/
theorem grasp_inc_shifts_index_and_fingers (fp : FloatOps) (st : HandState)
    (hmode : st.currentMode = Mode.GRASP)
    (hi : -2147483648 ≤ st.targetIndex ∧ st.targetIndex + 25 < 2147483648)
    (hf : -2147483648 ≤ st.targetFingers ∧ st.targetFingers + 25 < 2147483648) :
    targetPosture (handleBleCommand fp "INC" st)
      = (0, max 0 (min 180 (st.targetIndex + 25)), max 0 (min 180 (st.targetFingers + 25))) ∧
    currentPosture (handleBleCommand fp "INC" st)
      = targetPosture (handleBleCommand fp "INC" st) ∧
    (targetPosture st = (0, 60, 45) →
      targetPosture (handleBleCommand fp "INC" st) = (0, 85, 70) ∧
      currentPosture (handleBleCommand fp "INC" st) = (0, 85, 70)) := by
  have hwi : wrapInt32 (st.targetIndex + 25) = st.targetIndex + 25 :=
    wrapInt32_of_range _ (by omega) (by omega)
  have hwf : wrapInt32 (st.targetFingers + 25) = st.targetFingers + 25 :=
    wrapInt32_of_range _ (by omega) (by omega)
  have ht : targetPosture (handleBleCommand fp "INC" st)
      = (0, max 0 (min 180 (st.targetIndex + 25)),
          max 0 (min 180 (st.targetFingers + 25))) := by
    simp [handleBleCommand, hmode, adjustAnglesBy, printStatus, moveAllSmooth, targetPosture,
      hwi, hwf, clampAngle_eq_max_min, DEFAULT_GRASP_T]
  have hc : currentPosture (handleBleCommand fp "INC" st)
      = targetPosture (handleBleCommand fp "INC" st) := by
    simp [handleBleCommand, hmode, adjustAnglesBy, printStatus, moveAllSmooth, targetPosture,
      currentPosture]
  refine ⟨ht, hc, ?_⟩
  intro h
  simp only [targetPosture, Prod.mk.injEq] at h
  obtain ⟨_, h2, h3⟩ := h
  rw [hc, ht, h2, h3]
  exact ⟨rfl, rfl⟩

theorem grasp_inc_shifts_index_and_fingers_witness :
    (atRest Mode.GRASP 0 60 45).currentMode = Mode.GRASP ∧
    targetPosture (atRest Mode.GRASP 0 60 45) = (0, 60, 45) ∧
    targetPosture (handleBleCommand exactOps "INC" (atRest Mode.GRASP 0 60 45)) = (0, 85, 70) ∧
    currentPosture (handleBleCommand exactOps "INC" (atRest Mode.GRASP 0 60 45))
      = (0, 85, 70) :=
  ⟨rfl, rfl,
    (grasp_inc_shifts_index_and_fingers exactOps (atRest Mode.GRASP 0 60 45) rfl
      (by decide) (by decide)).2.2 rfl⟩

/-! ## Repeated decrements -/

theorem dec_step_targets (fp : FloatOps) (st : HandState)
    (hmode : st.currentMode = Mode.PINCH ∨ st.currentMode = Mode.POINTING) :
    (handleBleCommand fp "DEC" st).currentMode = st.currentMode ∧
    targetPosture (handleBleCommand fp "DEC" st)
      = (clampAngle (wrapInt32 (st.targetThumb + -25)),
          clampAngle (wrapInt32 (st.targetIndex + -25)),
          clampAngle (wrapInt32 (st.targetFingers + -25))) ∧
    currentPosture (handleBleCommand fp "DEC" st)
      = targetPosture (handleBleCommand fp "DEC" st) := by
  have hg : st.currentMode ≠ Mode.GRASP := by
    rcases hmode with h | h <;> simp [h]
  have hr : st.currentMode ≠ Mode.RELAX := by
    rcases hmode with h | h <;> simp [h]
  refine ⟨?_, ?_, ?_⟩ <;>
    simp [handleBleCommand, hr, adjustAnglesBy, if_neg hg, printStatus, moveAllSmooth,
      targetPosture, currentPosture]

theorem clamp_dec (x : Int) (n : Nat) :
    clampAngle (wrapInt32 (max 0 (x - 25 * (n : Int)) + -25)) = max 0 (x - 25 * ((n + 1 : Nat) : Int))
      ∨ 180 < x := by
  by_cases hx : 180 < x
  · exact Or.inr hx
  · left
    have h1 : max 0 (x - 25 * (n : Int)) ≤ 180 := by omega
    have h2 : 0 ≤ max 0 (x - 25 * (n : Int)) := le_max_left _ _
    rw [wrapInt32_of_range _ (by omega) (by omega)]
    unfold clampAngle
    push_cast
    split_ifs <;> omega

theorem repeatCommand_dec (fp : FloatOps) (st : HandState) (n : Nat)
    (hmode : st.currentMode = Mode.PINCH ∨ st.currentMode = Mode.POINTING)
    (ht : 0 ≤ st.targetThumb ∧ st.targetThumb ≤ 180)
    (hi : 0 ≤ st.targetIndex ∧ st.targetIndex ≤ 180)
    (hf : 0 ≤ st.targetFingers ∧ st.targetFingers ≤ 180) :
    (repeatCommand fp "DEC" n st).currentMode = st.currentMode ∧
    targetPosture (repeatCommand fp "DEC" n st)
      = (max 0 (st.targetThumb - 25 * (n : Int)), max 0 (st.targetIndex - 25 * (n : Int)),
          max 0 (st.targetFingers - 25 * (n : Int))) := by
  induction n with
  | zero =>
    refine ⟨rfl, ?_⟩
    simp only [repeatCommand, targetPosture, Nat.cast_zero, mul_zero, sub_zero]
    rw [max_eq_right ht.1, max_eq_right hi.1, max_eq_right hf.1]
  | succ k ih =>
    obtain ⟨hm, hp⟩ := ih
    have hmode2 : (repeatCommand fp "DEC" k st).currentMode = Mode.PINCH ∨
        (repeatCommand fp "DEC" k st).currentMode = Mode.POINTING := by rw [hm]; exact hmode
    obtain ⟨s1, s2, _⟩ := dec_step_targets fp _ hmode2
    simp only [targetPosture, Prod.mk.injEq] at hp
    obtain ⟨p1, p2, p3⟩ := hp
    refine ⟨by rw [repeatCommand, s1, hm], ?_⟩
    rw [repeatCommand, s2, p1, p2, p3]
    have c1 := clamp_dec st.targetThumb k
    have c2 := clamp_dec st.targetIndex k
    have c3 := clamp_dec st.targetFingers k
    rcases c1 with c1 | c1
    · rcases c2 with c2 | c2
      · rcases c3 with c3 | c3
        · rw [c1, c2, c3]
        · omega
      · omega
    · omega

/-- C11: in Pinch or Pointing mode with every target angle `x` in [0,180],
after `n` consecutive DEC commands each target equals `max(0, x - 25*n)`. In
particular from Pointing with target (120,180,0): the fingers target is 0 after
each of the first 8 DECs, the thumb target is positive before the 5th DEC and 0
at the 5th, the index target is positive before the 8th DEC and 0 at the 8th,
and after 8 DECs the target is (0,0,0). -/
theorem dec_repeated_clamps_at_zero (fp : FloatOps) (st : HandState) (n : Nat)
    (hmode : st.currentMode = Mode.PINCH ∨ st.currentMode = Mode.POINTING)
    (ht : 0 ≤ st.targetThumb ∧ st.targetThumb ≤ 180)
    (hi : 0 ≤ st.targetIndex ∧ st.targetIndex ≤ 180)
    (hf : 0 ≤ st.targetFingers ∧ st.targetFingers ≤ 180) :
    targetPosture (repeatCommand fp "DEC" n st)
      = (max 0 (st.targetThumb - 25 * (n : Int)), max 0 (st.targetIndex - 25 * (n : Int)),
          max 0 (st.targetFingers - 25 * (n : Int))) ∧
    (st.currentMode = Mode.POINTING → targetPosture st = (120, 180, 0) →
      (∀ k, 1 ≤ k → k ≤ 8 → (repeatCommand fp "DEC" k st).targetFingers = 0) ∧
      (∀ k, k < 5 → 0 < (repeatCommand fp "DEC" k st).targetThumb) ∧
      (repeatCommand fp "DEC" 5 st).targetThumb = 0 ∧
      (∀ k, k < 8 → 0 < (repeatCommand fp "DEC" k st).targetIndex) ∧
      (repeatCommand fp "DEC" 8 st).targetIndex = 0 ∧
      targetPosture (repeatCommand fp "DEC" 8 st) = (0, 0, 0)) := by
  refine ⟨(repeatCommand_dec fp st n hmode ht hi hf).2, ?_⟩
  intro _ hp
  simp only [targetPosture, Prod.mk.injEq] at hp
  obtain ⟨p1, p2, p3⟩ := hp
  have key : ∀ k : Nat, (repeatCommand fp "DEC" k st).targetThumb = max 0 (120 - 25 * (k : Int)) ∧
      (repeatCommand fp "DEC" k st).targetIndex = max 0 (180 - 25 * (k : Int)) ∧
      (repeatCommand fp "DEC" k st).targetFingers = max 0 (0 - 25 * (k : Int)) := by
    intro k
    have h := (repeatCommand_dec fp st k hmode ht hi hf).2
    simp only [targetPosture, Prod.mk.injEq, p1, p2, p3] at h
    exact h
  refine ⟨?_, ?_, ?_, ?_, ?_, ?_⟩
  · intro k _ _
    rw [(key k).2.2]
    omega
  · intro k hk
    rw [(key k).1]
    omega
  · rw [(key 5).1]
    decide
  · intro k hk
    rw [(key k).2.1]
    omega
  · rw [(key 8).2.1]
    decide
  · simp only [targetPosture, (key 8).1, (key 8).2.1, (key 8).2.2]
    decide

theorem dec_repeated_clamps_at_zero_witness :
    ((atRest Mode.POINTING 120 180 0).currentMode = Mode.PINCH ∨
      (atRest Mode.POINTING 120 180 0).currentMode = Mode.POINTING) ∧
    targetPosture (atRest Mode.POINTING 120 180 0) = (120, 180, 0) ∧
    targetPosture (repeatCommand exactOps "DEC" 8 (atRest Mode.POINTING 120 180 0))
      = (0, 0, 0) :=
  ⟨Or.inr rfl, rfl,
    ((dec_repeated_clamps_at_zero exactOps (atRest Mode.POINTING 120 180 0) 8 (Or.inr rfl)
      (by decide) (by decide) (by decide)).2 rfl rfl).2.2.2.2.2⟩

/-! ## Posture range invariant -/

theorem postureInRange_setMode (fp : FloatOps) (m : Mode) (st : HandState) :
    PostureInRange (setMode fp m st) := by
  cases m <;>
    simp [PostureInRange, setMode, printStatus, moveAllSmooth, emit, DEFAULT_RELAX_T,
      DEFAULT_RELAX_I, DEFAULT_RELAX_F, DEFAULT_PINCH_T, DEFAULT_PINCH_I, DEFAULT_PINCH_F,
      DEFAULT_GRASP_T, DEFAULT_GRASP_I, DEFAULT_GRASP_F, DEFAULT_POINT_T, DEFAULT_POINT_I,
      DEFAULT_POINT_F]

theorem postureInRange_adjustAnglesBy (fp : FloatOps) (delta : Int) (st : HandState) :
    PostureInRange (adjustAnglesBy fp delta st) := by
  have h := clampAngle_range
  unfold adjustAnglesBy
  split_ifs <;>
    simp only [PostureInRange, printStatus, moveAllSmooth, DEFAULT_GRASP_T] <;>
    simp [h]

theorem postureInRange_handleBleCommand (fp : FloatOps) (cmd : String) (st : HandState)
    (h : PostureInRange st) : PostureInRange (handleBleCommand fp cmd st) := by
  unfold handleBleCommand
  split_ifs
  · exact postureInRange_setMode fp _ st
  · exact postureInRange_setMode fp _ st
  · exact postureInRange_setMode fp _ st
  · exact postureInRange_setMode fp _ st
  · exact postureInRange_adjustAnglesBy fp _ st
  · exact h
  · exact postureInRange_adjustAnglesBy fp _ st
  · exact h
  · exact h
  · exact h

theorem postureInRange_onWrite (fp : FloatOps) (value : String) (st : HandState)
    (h : PostureInRange st) : PostureInRange (onWrite fp value st) := by
  unfold onWrite
  lift_lets
  intro cmd
  split_ifs
  · exact h
  · exact postureInRange_handleBleCommand fp cmd _ h

theorem postureInRange_block (c : Prop) [Decidable c] (act : HandState → HandState)
    (st : HandState) (h : PostureInRange st) (hact : PostureInRange (act st)) :
    PostureInRange (if c then emit (Effect.delay 150) (act st) else st) := by
  split_ifs
  · exact hact
  · exact h

theorem postureInRange_guarded_adjust (fp : FloatOps) (delta : Int) (st : HandState)
    (h : PostureInRange st) :
    PostureInRange (if st.currentMode ≠ Mode.RELAX then adjustAnglesBy fp delta st else st) := by
  split_ifs
  · exact postureInRange_adjustAnglesBy fp delta st
  · exact h

theorem postureInRange_loop (fp : FloatOps) (inp : Inputs) (st : HandState)
    (h : PostureInRange st) : PostureInRange (loop fp inp st) := by
  unfold loop
  lift_lets
  intro s1 s2 s3 s4 s5 s6 s7 s8
  have h1 : PostureInRange s1 := postureInRange_block _ _ st h (postureInRange_setMode fp _ st)
  have h2 : PostureInRange s2 := postureInRange_block _ _ s1 h1 (postureInRange_setMode fp _ s1)
  have h3 : PostureInRange s3 := postureInRange_block _ _ s2 h2 (postureInRange_setMode fp _ s2)
  have h4 : PostureInRange s4 := postureInRange_block _ _ s3 h3 (postureInRange_setMode fp _ s3)
  have h5 : PostureInRange s5 :=
    postureInRange_block _
      (fun s => if s.currentMode ≠ Mode.RELAX then adjustAnglesBy fp 25 s else s) s4 h4
      (postureInRange_guarded_adjust fp 25 s4 h4)
  have h6 : PostureInRange s6 :=
    postureInRange_block _
      (fun s => if s.currentMode ≠ Mode.RELAX then adjustAnglesBy fp (-25) s else s) s5 h5
      (postureInRange_guarded_adjust fp (-25) s5 h5)
  have h7 : PostureInRange s7 := h6
  have h8 : PostureInRange s8 := by
    simp only [s8, sendBattery]
    split_ifs <;> exact h7
  exact h8

theorem postureInRange_step (fp : FloatOps) (ev : Event) (st : HandState)
    (h : PostureInRange st) : PostureInRange (step fp ev st) := by
  cases ev with
  | write value => exact postureInRange_onWrite fp value st h
  | pass inp => exact postureInRange_loop fp inp st h
  | connect => exact h
  | disconnect => exact h

theorem postureInRange_run (fp : FloatOps) (events : List Event) (st : HandState)
    (h : PostureInRange st) : PostureInRange (run fp events st) := by
  induction events generalizing st with
  | nil => exact h
  | cons ev rest ih => exact ih _ (postureInRange_step fp ev st h)

/-- C12 (posture range invariant): the state `setup` leaves has mode Relax and
current = target = (180,180,180), and in every state reached from it by any
finite sequence of events (writes of any text to the command characteristic,
passes of `loop` with any samples, a peer connecting or disconnecting) all three
current angles and all three target angles lie in [0,180]. The same holds when
the commands reach `handleBleCommand` untrimmed. -/
theorem posture_in_range_invariant (fp : FloatOps) (events : List Event)
    (relax pinch grasp point inc dec : Int) :
    ((setup relax pinch grasp point inc dec).currentMode = Mode.RELAX ∧
      currentPosture (setup relax pinch grasp point inc dec) = (180, 180, 180) ∧
      targetPosture (setup relax pinch grasp point inc dec) = (180, 180, 180)) ∧
    PostureInRange (run fp events (setup relax pinch grasp point inc dec)) ∧
    (∀ cmd, PostureInRange
      (handleBleCommand fp cmd (run fp events (setup relax pinch grasp point inc dec)))) := by
  have h0 : PostureInRange (setup relax pinch grasp point inc dec) := by
    simp [PostureInRange, setup, printStatus, DEFAULT_RELAX_T, DEFAULT_RELAX_I, DEFAULT_RELAX_F]
  have h := postureInRange_run fp events _ h0
  exact ⟨⟨rfl, rfl, rfl⟩, h, fun cmd => postureInRange_handleBleCommand fp cmd _ h⟩

/-! ## Telemetry -/

theorem notifications_moveLoop (fp : FloatOps) (st : HandState) (sleepTime : Int)
    (steps : List Nat) :
    notifications (steps.flatMap (moveStep fp st sleepTime)) = [] := by
  induction steps with
  | nil => rfl
  | cons s rest ih =>
    simp only [notifications] at ih
    simp [notifications, List.flatMap_cons, List.filterMap_append, ih, moveStep]

theorem telemetryView_moveAllSmooth (fp : FloatOps) (d : Int) (st : HandState) :
    telemetryView (moveAllSmooth fp d st) = telemetryView st := by
  have h := notifications_moveLoop fp st (Int.tdiv d MOVE_STEPS) (List.range' 1 MOVE_STEPS.toNat)
  simp only [notifications] at h
  simp [telemetryView, moveAllSmooth, notifications, List.filterMap_append, h]

theorem telemetryView_printStatus (st : HandState) :
    telemetryView (printStatus st) = telemetryView st := by
  simp [telemetryView, printStatus, notifications, List.filterMap_append]

theorem telemetryView_setMode (fp : FloatOps) (m : Mode) (st : HandState) :
    telemetryView (setMode fp m st) = telemetryView st := by
  cases m <;>
    simp only [setMode, telemetryView_printStatus, telemetryView_moveAllSmooth] <;>
    simp [telemetryView, emit, notifications, List.filterMap_append]

theorem telemetryView_adjustAnglesBy (fp : FloatOps) (delta : Int) (st : HandState) :
    telemetryView (adjustAnglesBy fp delta st) = telemetryView st := by
  unfold adjustAnglesBy
  split_ifs <;>
    simp only [telemetryView_printStatus, telemetryView_moveAllSmooth] <;>
    rfl

theorem telemetryView_guarded_adjust (fp : FloatOps) (delta : Int) (st : HandState) :
    telemetryView (if st.currentMode ≠ Mode.RELAX then adjustAnglesBy fp delta st else st)
      = telemetryView st := by
  split_ifs
  · exact telemetryView_adjustAnglesBy fp delta st
  · rfl

theorem telemetryView_block (c : Prop) [Decidable c] (act : HandState → HandState)
    (st : HandState) (hact : telemetryView (act st) = telemetryView st) :
    telemetryView (if c then emit (Effect.delay 150) (act st) else st) = telemetryView st := by
  split_ifs
  · rw [← hact]
    simp [telemetryView, emit, notifications, List.filterMap_append]
  · rfl

theorem telemetryView_report (fp : FloatOps) (inp : Inputs) (s : HandState) :
    telemetryView
        (if s.deviceConnected = true then
          if subU32 inp.now s.lastBatteryUpdate > 5000 then
            sendBattery fp inp.raw { s with lastBatteryUpdate := inp.now % 4294967296 }
          else s
        else s) =
      if s.deviceConnected = true ∧ subU32 inp.now s.lastBatteryUpdate > 5000 then
        (true, inp.now % 4294967296, s.batteryCharSet,
          notifications s.trace ++
            (if s.batteryCharSet = true
              then ["BAT:" ++ toString (readBatteryPercent fp inp.raw)] else []))
      else telemetryView s := by
  by_cases hc : s.deviceConnected = true <;>
    by_cases ht : subU32 inp.now s.lastBatteryUpdate > 5000 <;>
    by_cases hb : s.batteryCharSet = true <;>
    simp [hc, ht, hb, telemetryView, sendBattery, emit, notifications, List.filterMap_append]

theorem loop_telemetryView (fp : FloatOps) (inp : Inputs) (st : HandState) :
    telemetryView (loop fp inp st) =
      if st.deviceConnected = true ∧ subU32 inp.now st.lastBatteryUpdate > 5000 then
        (true, inp.now % 4294967296, st.batteryCharSet,
          notifications st.trace ++
            (if st.batteryCharSet = true
              then ["BAT:" ++ toString (readBatteryPercent fp inp.raw)] else []))
      else telemetryView st := by
  unfold loop
  lift_lets
  intro s1 s2 s3 s4 s5 s6 s7 s8
  have h1 : telemetryView s1 = telemetryView st :=
    telemetryView_block _ _ st (telemetryView_setMode fp _ st)
  have h2 : telemetryView s2 = telemetryView s1 :=
    telemetryView_block _ _ s1 (telemetryView_setMode fp _ s1)
  have h3 : telemetryView s3 = telemetryView s2 :=
    telemetryView_block _ _ s2 (telemetryView_setMode fp _ s2)
  have h4 : telemetryView s4 = telemetryView s3 :=
    telemetryView_block _ _ s3 (telemetryView_setMode fp _ s3)
  have h5 : telemetryView s5 = telemetryView s4 :=
    telemetryView_block _
      (fun s => if s.currentMode ≠ Mode.RELAX then adjustAnglesBy fp 25 s else s) s4
      (telemetryView_guarded_adjust fp 25 s4)
  have h6 : telemetryView s6 = telemetryView s5 :=
    telemetryView_block _
      (fun s => if s.currentMode ≠ Mode.RELAX then adjustAnglesBy fp (-25) s else s) s5
      (telemetryView_guarded_adjust fp (-25) s5)
  have h7 : telemetryView s7 = telemetryView st := by
    rw [← h1, ← h2, ← h3, ← h4, ← h5, ← h6]
    rfl
  have h8 : telemetryView s8 = _ := telemetryView_report fp inp s7
  have h9 : telemetryView (emit (Effect.delay 10) s8) = telemetryView s8 := by
    simp [telemetryView, emit, notifications, List.filterMap_append]
  clear_value s8 s7
  rw [h9, h8]
  simp only [telemetryView, Prod.mk.injEq] at h7
  obtain ⟨g1, g2, g3, g4⟩ := h7
  simp only [telemetryView, g1, g2, g3, g4]

theorem runLoop_telemetryView_disconnected (fp : FloatOps) (inps : List Inputs) (st : HandState)
    (h : st.deviceConnected = false) :
    telemetryView (runLoop fp inps st) = telemetryView st := by
  induction inps generalizing st with
  | nil => rfl
  | cons inp rest ih =>
    have h1 : telemetryView (loop fp inp st) = telemetryView st := by
      rw [loop_telemetryView]
      simp [h]
    have h2 : (loop fp inp st).deviceConnected = false := by
      have h3 := congrArg Prod.fst h1
      simp only [telemetryView] at h3
      rw [h3, h]
    rw [runLoop, ih _ h2, h1]

/-- C13: while no peer is connected (`deviceConnected` is false), consecutive
passes of `loop`, however many and whatever the clock values and samples, emit
no battery notification: the notified payloads are the ones notified before
(none, if there were none), `lastBatteryUpdate` keeps its value and the peer is
still disconnected. `sendBattery` called directly in that state returns the
state unchanged. After `setup`, passes alone never notify. -/
theorem disconnected_emits_no_notification (fp : FloatOps) (inps : List Inputs) (raw : Int)
    (st : HandState) (relax pinch grasp point inc dec : Int)
    (h : st.deviceConnected = false) :
    notifications (runLoop fp inps st).trace = notifications st.trace ∧
    (notifications st.trace = [] → notifications (runLoop fp inps st).trace = []) ∧
    (runLoop fp inps st).lastBatteryUpdate = st.lastBatteryUpdate ∧
    (runLoop fp inps st).deviceConnected = false ∧
    sendBattery fp raw st = st ∧
    notifications (runLoop fp inps (setup relax pinch grasp point inc dec)).trace = [] := by
  have hv := runLoop_telemetryView_disconnected fp inps st h
  have hs := runLoop_telemetryView_disconnected fp inps
    (setup relax pinch grasp point inc dec) rfl
  simp only [telemetryView, Prod.mk.injEq] at hv hs
  obtain ⟨v1, v2, _, v4⟩ := hv
  refine ⟨v4, fun h0 => by rw [v4, h0], v2, by rw [v1, h], ?_, ?_⟩
  · simp [sendBattery, h]
  · rw [hs.2.2.2]
    rfl

theorem disconnected_emits_no_notification_witness :
    (atRest Mode.RELAX 180 180 180).deviceConnected = false ∧
    notifications (runLoop exactOps
      [{ idleInputs with now := 10 }, { idleInputs with now := 5020, curGrasp := LOW },
        { idleInputs with now := 10400 }] (atRest Mode.RELAX 180 180 180)).trace = [] ∧
    (runLoop exactOps
      [{ idleInputs with now := 10 }, { idleInputs with now := 5020, curGrasp := LOW },
        { idleInputs with now := 10400 }] (atRest Mode.RELAX 180 180 180)).lastBatteryUpdate
      = 0 :=
  have h := disconnected_emits_no_notification exactOps
    [{ idleInputs with now := 10 }, { idleInputs with now := 5020, curGrasp := LOW },
      { idleInputs with now := 10400 }] 0 (atRest Mode.RELAX 180 180 180) 1 1 1 1 1 1 rfl
  ⟨rfl, h.2.1 rfl, h.2.2.1⟩

/-- C19, as stated, fails at the boundary: with a peer connected,
`lastBatteryUpdate = 0` and clock value 5000 the elapsed time has reached the
5000 ms interval, yet the pass emits no notification and leaves
`lastBatteryUpdate` at 0. -/
theorem no_notification_at_exactly_5000 :
    (onConnect (atRest Mode.RELAX 180 180 180)).deviceConnected = true ∧
    subU32 ({ idleInputs with now := 5000 } : Inputs).now
      (onConnect (atRest Mode.RELAX 180 180 180)).lastBatteryUpdate = 5000 ∧
    notifications (loop exactOps { idleInputs with now := 5000 }
      (onConnect (atRest Mode.RELAX 180 180 180))).trace = [] ∧
    (loop exactOps { idleInputs with now := 5000 }
      (onConnect (atRest Mode.RELAX 180 180 180))).lastBatteryUpdate = 0 := by
  decide

/-- C19, amended: in a pass of `loop` with a peer connected (and the battery
characteristic created, as `setup` does) at clock value `now`, when the elapsed
time `now - lastBatteryUpdate` (unsigned 32-bit subtraction) exceeds 5000 ms,
that is, is at least 5001, exactly one notification is emitted, with payload
"BAT:" followed by the decimal battery percent, and `lastBatteryUpdate` becomes
`now`; otherwise, also at exactly 5000 ms, nothing is emitted and
`lastBatteryUpdate` is unchanged. In every state a pass emits at most one
notification. -/
theorem telemetry_cadence (fp : FloatOps) (inp : Inputs) (st : HandState)
    (hconn : st.deviceConnected = true) (hchar : st.batteryCharSet = true)
    (hnow : inp.now < 4294967296) :
    (5000 < subU32 inp.now st.lastBatteryUpdate →
      notifications (loop fp inp st).trace
          = notifications st.trace ++ ["BAT:" ++ toString (readBatteryPercent fp inp.raw)] ∧
        (loop fp inp st).lastBatteryUpdate = inp.now) ∧
    (subU32 inp.now st.lastBatteryUpdate ≤ 5000 →
      notifications (loop fp inp st).trace = notifications st.trace ∧
        (loop fp inp st).lastBatteryUpdate = st.lastBatteryUpdate) ∧
    (∀ s : HandState, (notifications (loop fp inp s).trace).length
      ≤ (notifications s.trace).length + 1) := by
  refine ⟨?_, ?_, ?_⟩
  · intro ht
    have h := loop_telemetryView fp inp st
    rw [if_pos ⟨hconn, ht⟩] at h
    simp only [telemetryView, Prod.mk.injEq, hchar, if_true] at h
    exact ⟨h.2.2.2, by rw [h.2.1, Nat.mod_eq_of_lt hnow]⟩
  · intro ht
    have h := loop_telemetryView fp inp st
    rw [if_neg (by omega)] at h
    simp only [telemetryView, Prod.mk.injEq] at h
    exact ⟨h.2.2.2, h.2.1⟩
  · intro s
    have h := loop_telemetryView fp inp s
    split_ifs at h <;> simp only [telemetryView, Prod.mk.injEq] at h <;> rw [h.2.2.2] <;> simp

theorem telemetry_cadence_witness :
    (onConnect (atRest Mode.RELAX 180 180 180)).deviceConnected = true ∧
    5000 < subU32 ({ idleInputs with now := 5001, raw := 4095 } : Inputs).now
      (onConnect (atRest Mode.RELAX 180 180 180)).lastBatteryUpdate ∧
    notifications (loop exactOps { idleInputs with now := 5001, raw := 4095 }
      (onConnect (atRest Mode.RELAX 180 180 180))).trace
      = notifications (onConnect (atRest Mode.RELAX 180 180 180)).trace ++
          ["BAT:" ++ toString (readBatteryPercent exactOps 4095)] ∧
    (loop exactOps { idleInputs with now := 5001, raw := 4095 }
      (onConnect (atRest Mode.RELAX 180 180 180))).lastBatteryUpdate = 5001 :=
  ⟨rfl, by decide,
    (telemetry_cadence exactOps { idleInputs with now := 5001, raw := 4095 }
      (onConnect (atRest Mode.RELAX 180 180 180)) rfl rfl (by decide)).1 (by decide)⟩

/-! ## Simultaneous button edges -/

theorem currentMode_adjustAnglesBy (fp : FloatOps) (delta : Int) (st : HandState) :
    (adjustAnglesBy fp delta st).currentMode = st.currentMode := by
  unfold adjustAnglesBy
  split_ifs <;> rfl

theorem currentMode_guarded_adjust (fp : FloatOps) (delta : Int) (st : HandState) :
    (if st.currentMode ≠ Mode.RELAX then adjustAnglesBy fp delta st else st).currentMode
      = st.currentMode := by
  split_ifs
  · exact currentMode_adjustAnglesBy fp delta st
  · rfl

theorem currentMode_setMode (fp : FloatOps) (m : Mode) (st : HandState) :
    (setMode fp m st).currentMode = m := by
  cases m <;> rfl

theorem currentMode_block (c : Prop) [Decidable c] (act : HandState → HandState)
    (st : HandState) (m : Mode) (hact : (act st).currentMode = m) :
    (if c then emit (Effect.delay 150) (act st) else st).currentMode
      = if c then m else st.currentMode := by
  split_ifs
  · exact hact
  · rfl

theorem loop_currentMode (fp : FloatOps) (inp : Inputs) (st : HandState) :
    (loop fp inp st).currentMode =
      if st.prevPointState = HIGH ∧ inp.curPoint = LOW then Mode.POINTING
      else if st.prevGraspState = HIGH ∧ inp.curGrasp = LOW then Mode.GRASP
      else if st.prevPinchState = HIGH ∧ inp.curPinch = LOW then Mode.PINCH
      else if st.prevRelaxState = HIGH ∧ inp.curRelax = LOW then Mode.RELAX
      else st.currentMode := by
  unfold loop
  lift_lets
  intro s1 s2 s3 s4 s5 s6 s7 s8
  have b1 : buttonStates s1 = buttonStates st :=
    buttonStates_block _ _ st (buttonStates_setMode fp _ st)
  have b2 : buttonStates s2 = buttonStates s1 :=
    buttonStates_block _ _ s1 (buttonStates_setMode fp _ s1)
  have b3 : buttonStates s3 = buttonStates s2 :=
    buttonStates_block _ _ s2 (buttonStates_setMode fp _ s2)
  have c1 : s1.currentMode = _ := currentMode_block _ _ st _ (currentMode_setMode fp _ st)
  have c2 : s2.currentMode = _ := currentMode_block _ _ s1 _ (currentMode_setMode fp _ s1)
  have c3 : s3.currentMode = _ := currentMode_block _ _ s2 _ (currentMode_setMode fp _ s2)
  have c4 : s4.currentMode = _ := currentMode_block _ _ s3 _ (currentMode_setMode fp _ s3)
  have c5 : s5.currentMode = s4.currentMode := by
    have h := currentMode_block (s4.prevIncState = HIGH ∧ inp.curInc = LOW)
      (fun s => if s.currentMode ≠ Mode.RELAX then adjustAnglesBy fp 25 s else s) s4 _
      (currentMode_guarded_adjust fp 25 s4)
    rw [ite_self] at h
    exact h
  have c6 : s6.currentMode = s5.currentMode := by
    have h := currentMode_block (s5.prevDecState = HIGH ∧ inp.curDec = LOW)
      (fun s => if s.currentMode ≠ Mode.RELAX then adjustAnglesBy fp (-25) s else s) s5 _
      (currentMode_guarded_adjust fp (-25) s5)
    rw [ite_self] at h
    exact h
  have c8 : s8.currentMode = s6.currentMode := by
    simp only [s8, sendBattery]
    split_ifs <;> rfl
  have c9 : (emit (Effect.delay 10) s8).currentMode = s8.currentMode := rfl
  simp only [buttonStates, Prod.mk.injEq] at b1 b2 b3
  rw [c9, c8, c6, c5, c4, c3, c2, c1]
  simp only [b3.2.2.2.1, b2.2.2.2.1, b2.2.2.1, b1.2.2.2.1, b1.2.2.1, b1.2.1]

/-- C16, as stated, fails: from Grasp, a pass in which the Relax and the Pinch
button both show a high-to-low edge prints both banners (both actions are
processed) and ends in mode Pinch, the later-checked button, not in Relax, the
first-checked one. -/
theorem simultaneous_edges_first_does_not_win :
    (prevState Button.BTN_RELAX (atRest Mode.GRASP 0 60 45) = HIGH ∧
      curSample Button.BTN_RELAX { idleInputs with curRelax := LOW, curPinch := LOW } = LOW) ∧
    (prevState Button.BTN_PINCH (atRest Mode.GRASP 0 60 45) = HIGH ∧
      curSample Button.BTN_PINCH { idleInputs with curRelax := LOW, curPinch := LOW } = LOW) ∧
    announcements Mode.RELAX (loop exactOps { idleInputs with curRelax := LOW, curPinch := LOW }
      (atRest Mode.GRASP 0 60 45)).trace = 1 ∧
    announcements Mode.PINCH (loop exactOps { idleInputs with curRelax := LOW, curPinch := LOW }
      (atRest Mode.GRASP 0 60 45)).trace = 1 ∧
    (loop exactOps { idleInputs with curRelax := LOW, curPinch := LOW }
      (atRest Mode.GRASP 0 60 45)).currentMode = Mode.PINCH ∧
    (loop exactOps { idleInputs with curRelax := LOW, curPinch := LOW }
      (atRest Mode.GRASP 0 60 45)).currentMode ≠ Mode.RELAX := by
  decide

/-- C16, amended: in a pass of `loop` every mode button (Relax, Pinch, Grasp,
Point) with a high-to-low edge has its action processed, in check order (its
banner is printed once, and not at all without an edge), and the last-checked
button wins: the mode in effect after the pass is Pointing if the Point button
has an edge, else Grasp if the Grasp button has one, else Pinch if the Pinch
button has one, else Relax if the Relax button has one, else the mode before
the pass. -/
theorem simultaneous_edges_last_checked_wins (fp : FloatOps) (inp : Inputs) (st : HandState) :
    (∀ m, announcements m (loop fp inp st).trace = announcements m st.trace +
      (if prevState (modeButton m) st = HIGH ∧ curSample (modeButton m) inp = LOW
        then 1 else 0)) ∧
    (loop fp inp st).currentMode =
      (if prevState Button.BTN_POINT st = HIGH ∧ curSample Button.BTN_POINT inp = LOW
        then Mode.POINTING
      else if prevState Button.BTN_GRASP st = HIGH ∧ curSample Button.BTN_GRASP inp = LOW
        then Mode.GRASP
      else if prevState Button.BTN_PINCH st = HIGH ∧ curSample Button.BTN_PINCH inp = LOW
        then Mode.PINCH
      else if prevState Button.BTN_RELAX st = HIGH ∧ curSample Button.BTN_RELAX inp = LOW
        then Mode.RELAX
      else st.currentMode) :=
  ⟨fun m => loop_announcements fp inp st m, loop_currentMode fp inp st⟩

/-! ## Steps and pacing of a motion -/

theorem delays_moveLoop (fp : FloatOps) (st : HandState) (sleepTime : Int) (steps : List Nat) :
    delays (steps.flatMap (moveStep fp st sleepTime)) = List.replicate steps.length sleepTime := by
  induction steps with
  | nil => rfl
  | cons s rest ih =>
    simp only [delays] at ih
    simp [delays, List.flatMap_cons, List.filterMap_append, ih, moveStep, List.replicate_succ]

theorem servoWrites_moveLoop_length (fp : FloatOps) (st : HandState) (sleepTime : Int)
    (steps : List Nat) (sv : Servo) :
    (servoWrites sv (steps.flatMap (moveStep fp st sleepTime))).length = steps.length := by
  induction steps with
  | nil => rfl
  | cons s rest ih =>
    simp only [servoWrites] at ih
    cases sv <;>
      simp [servoWrites, List.flatMap_cons, List.filterMap_append, ih, moveStep]

theorem delays_moveAllSmooth (fp : FloatOps) (d : Int) (st : HandState) :
    delays (moveAllSmooth fp d st).trace
      = delays st.trace ++ List.replicate 25 (Int.tdiv d 25) := by
  have h := delays_moveLoop fp st (Int.tdiv d MOVE_STEPS) (List.range' 1 MOVE_STEPS.toNat)
  simp only [delays] at h
  simp only [moveAllSmooth, delays, List.filterMap_append, h]
  simp [MOVE_STEPS]

theorem delays_printStatus (st : HandState) :
    delays (printStatus st).trace = delays st.trace := by
  simp [delays, printStatus, List.filterMap_append]

theorem delays_setMode (fp : FloatOps) (m : Mode) (st : HandState) :
    delays (setMode fp m st).trace = delays st.trace ++
      List.replicate 25 (if m = Mode.RELAX then 16 else 20) := by
  cases m <;>
    simp only [setMode, delays_printStatus, delays_moveAllSmooth] <;>
    simp [delays, emit, List.filterMap_append, MOVE_DURATION_MS] <;>
    decide

theorem delays_adjustAnglesBy (fp : FloatOps) (delta : Int) (st : HandState) :
    delays (adjustAnglesBy fp delta st).trace = delays st.trace ++ List.replicate 25 20 := by
  unfold adjustAnglesBy
  split_ifs <;>
    simp only [delays_printStatus, delays_moveAllSmooth] <;>
    simp [MOVE_DURATION_MS] <;>
    decide

/-- C18: for every `durationMs ≥ 0`, `moveAllSmooth(durationMs)` appends to the
trace exactly 25 interpolation steps, each one write to the thumb, the index and
the fingers servo followed by `delay(durationMs / 25)` (integer division), and
then one final write of the target to each servo: every servo is written 26
times and there are 25 delays. When `durationMs < 25` the delay is 0 and the
steps and writes are the same in number. Hence `setMode(Relax)` delays
`25 * 16 = 400` ms in total, every other `setMode` and every `adjustAnglesBy`
`25 * 20 = 500` ms. -/
theorem moveAllSmooth_steps_and_pacing (fp : FloatOps) (durationMs : Int) (st : HandState)
    (hd : 0 ≤ durationMs) :
    ((List.range' 1 25).length = 25 ∧
      (moveAllSmooth fp durationMs st).trace = st.trace ++
        (List.range' 1 25).flatMap (fun s =>
          [Effect.write Servo.servoThumb (fp.interp st.angleThumb st.targetThumb s 25),
            Effect.write Servo.servoIndex (fp.interp st.angleIndex st.targetIndex s 25),
            Effect.write Servo.servoFingers (fp.interp st.angleFingers st.targetFingers s 25),
            Effect.delay (durationMs / 25)]) ++
        [Effect.write Servo.servoThumb st.targetThumb,
          Effect.write Servo.servoIndex st.targetIndex,
          Effect.write Servo.servoFingers st.targetFingers]) ∧
    (∀ sv, (servoWrites sv (moveAllSmooth fp durationMs st).trace).length
      = (servoWrites sv st.trace).length + 26) ∧
    delays (moveAllSmooth fp durationMs st).trace
      = delays st.trace ++ List.replicate 25 (durationMs / 25) ∧
    (durationMs < 25 →
      delays (moveAllSmooth fp durationMs st).trace = delays st.trace ++ List.replicate 25 0) ∧
    (delays (setMode fp Mode.RELAX st).trace).sum = (delays st.trace).sum + 400 ∧
    (∀ m, m ≠ Mode.RELAX →
      (delays (setMode fp m st).trace).sum = (delays st.trace).sum + 500) ∧
    (∀ delta, (delays (adjustAnglesBy fp delta st).trace).sum
      = (delays st.trace).sum + 500) := by
  have htdiv : Int.tdiv durationMs 25 = durationMs / 25 :=
    Int.tdiv_eq_ediv hd (by decide)
  refine ⟨?_, ?_, ?_, ?_, ?_, ?_, ?_⟩
  · refine ⟨rfl, ?_⟩
    simp only [moveAllSmooth, ← htdiv]
    rfl
  · intro sv
    have h := servoWrites_moveLoop_length fp st (Int.tdiv durationMs MOVE_STEPS)
      (List.range' 1 MOVE_STEPS.toNat) sv
    have h25 : MOVE_STEPS.toNat = 25 := rfl
    rw [h25, List.length_range'] at h
    have hM : MOVE_STEPS = 25 := rfl
    simp only [servoWrites, hM] at h
    cases sv <;>
      simp [moveAllSmooth, servoWrites, List.filterMap_append, h, h25, hM]
  · rw [delays_moveAllSmooth, htdiv]
  · intro hlt
    rw [delays_moveAllSmooth, htdiv, Int.ediv_eq_zero_of_lt hd hlt]
  · rw [delays_setMode]
    simp
  · intro m hm
    rw [delays_setMode]
    simp [hm]
  · intro delta
    rw [delays_adjustAnglesBy]
    simp

theorem moveAllSmooth_steps_and_pacing_witness :
    (0 : Int) ≤ 7 ∧
    delays (moveAllSmooth exactOps 7 (atRest Mode.PINCH 30 40 120)).trace
      = delays (atRest Mode.PINCH 30 40 120).trace ++ List.replicate 25 0 ∧
    (delays (setMode exactOps Mode.GRASP (atRest Mode.PINCH 30 40 120)).trace).sum
      = (delays (atRest Mode.PINCH 30 40 120).trace).sum + 500 :=
  have h := moveAllSmooth_steps_and_pacing exactOps 7 (atRest Mode.PINCH 30 40 120) (by decide)
  ⟨by decide, h.2.2.2.1 (by decide), h.2.2.2.2.2.1 Mode.GRASP (by decide)⟩

/-! ## Trimming of inbound messages -/

theorem readBatteryPercent_range (fp : FloatOps) (raw : Int) :
    0 ≤ readBatteryPercent fp raw ∧ readBatteryPercent fp raw ≤ 100 := by
  simp only [readBatteryPercent]
  split_ifs <;> omega

theorem arduinoMap_band (x : Int)
    (hlo : -2147483648 ≤ (x - 330) * 100) (hhi : (x - 330) * 100 < 2147483648) :
    arduinoMap x 330 420 0 100 = Int.tdiv ((x - 330) * 100) 90 := by
  have h1 : wrapInt32 (420 - 330) = 90 := by decide
  have h2 : wrapInt32 (100 - 0) = 100 := by decide
  have h3 : wrapInt32 (x - 330) = x - 330 := wrapInt32_of_range _ (by omega) (by omega)
  have h4 : wrapInt32 ((x - 330) * 100) = (x - 330) * 100 := wrapInt32_of_range _ hlo hhi
  have h5 : -2147483648 ≤ Int.tdiv ((x - 330) * 100) 90 ∧
      Int.tdiv ((x - 330) * 100) 90 < 2147483648 := by
    rcases le_total 0 ((x - 330) * 100) with h | h
    · rw [Int.tdiv_eq_ediv h (by decide)]
      omega
    · have hn : Int.tdiv ((x - 330) * 100) 90 = -(Int.tdiv (-((x - 330) * 100)) 90) := by
        rw [Int.neg_tdiv, neg_neg]
      rw [hn, Int.tdiv_eq_ediv (by omega) (by decide)]
      omega
  simp only [arduinoMap, h1, h2, h3, h4, add_zero]
  rw [wrapInt32_of_range _ h5.1 h5.2, wrapInt32_of_range _ h5.1 h5.2]

/-- C14: for every raw analog sample (any integer) `readBatteryPercent` returns
an integer in [0,100]. With `cv` the `int` value of `voltage * 100`, whenever the
`long` product `(cv - 330) * 100` does not overflow the result is the linear
map of `cv` from the band [330,420] onto [0,100], `(cv - 330) * 100 / 90` with
the division truncating toward zero, clamped to [0,100]. -/
theorem readBatteryPercent_linear_clamped (fp : FloatOps) (raw : Int) :
    (0 ≤ readBatteryPercent fp raw ∧ readBatteryPercent fp raw ≤ 100) ∧
    (-2147483648 ≤ (fp.centivolts raw - 330) * 100 →
      (fp.centivolts raw - 330) * 100 < 2147483648 →
      readBatteryPercent fp raw
        = max 0 (min 100 (Int.tdiv ((fp.centivolts raw - 330) * (100 - 0)) (420 - 330) + 0))) := by
  refine ⟨readBatteryPercent_range fp raw, ?_⟩
  intro hlo hhi
  simp only [readBatteryPercent, arduinoMap_band _ hlo hhi]
  norm_num only
  split_ifs <;> omega

theorem readBatteryPercent_linear_clamped_witness :
    (-2147483648 ≤ (exactOps.centivolts 5000 - 330) * 100 ∧
      (exactOps.centivolts 5000 - 330) * 100 < 2147483648) ∧
    readBatteryPercent exactOps 5000
      = max 0 (min 100 (Int.tdiv ((exactOps.centivolts 5000 - 330) * (100 - 0)) (420 - 330) + 0)) ∧
    readBatteryPercent exactOps 5000 = 80 :=
  ⟨by decide,
    (readBatteryPercent_linear_clamped exactOps 5000).2 (by decide) (by decide), by decide⟩

/-! ## Interpolated angles -/

theorem truncQ_of_nonneg (q : ℚ) (h : 0 ≤ q) : truncQ q = ⌊q⌋ := by
  have hn : 0 ≤ q.num := Rat.num_nonneg.2 h
  rw [truncQ, Int.tdiv_eq_ediv hn (Int.ofNat_nonneg _), Rat.floor_def]

theorem truncQ_between (q : ℚ) (lo hi : Int) (h0 : 0 ≤ lo) (hlo : (lo : ℚ) ≤ q)
    (hhi : q ≤ (hi : ℚ)) : lo ≤ truncQ q ∧ truncQ q ≤ hi := by
  have hq : 0 ≤ q := le_trans (by exact_mod_cast h0) hlo
  rw [truncQ_of_nonneg q hq]
  exact ⟨Int.le_floor.2 hlo, Int.floor_le_iff.2 (lt_of_le_of_lt hhi (by linarith))⟩

theorem interpRounded_between (rdiv rmul radd : ℚ → ℚ)
    (hdiv : MonotoneExact rdiv) (hmul : MonotoneExact rmul) (hadd : MonotoneExact radd)
    (c t : Int) (hc : 0 ≤ c ∧ c ≤ 180) (ht : 0 ≤ t ∧ t ≤ 180)
    (s : Int) (hs : 1 ≤ s ∧ s ≤ 25) :
    (min c t ≤ interpRounded rdiv rmul radd c t s 25 ∧
      interpRounded rdiv rmul radd c t s 25 ≤ max c t) ∧
    (s = 25 → interpRounded rdiv rmul radd c t s 25 = t) := by
  obtain ⟨mdiv, ediv⟩ := hdiv
  obtain ⟨mmul, emul⟩ := hmul
  obtain ⟨madd, eadd⟩ := hadd
  have hs1 : (1 : ℚ) ≤ (s : ℚ) := by exact_mod_cast hs.1
  have hs2 : (s : ℚ) ≤ 25 := by exact_mod_cast hs.2
  have e0 : rdiv 0 = 0 := by simpa using ediv 0 (by decide) (by decide)
  have e1 : rdiv 1 = 1 := by simpa using ediv 1 (by decide) (by decide)
  have m0 : rmul 0 = 0 := by simpa using emul 0 (by decide) (by decide)
  have hp0 : 0 ≤ rdiv ((s : ℚ) / ((25 : Int) : ℚ)) := by
    rw [← e0]
    apply mdiv
    push_cast
    positivity
  have hp1 : rdiv ((s : ℚ) / ((25 : Int) : ℚ)) ≤ 1 := by
    rw [← e1]
    apply mdiv
    push_cast
    rw [div_le_one (by norm_num)]
    exact hs2
  have hd := emul (t - c) (by omega) (by omega)
  have hcc := eadd c (by omega) (by omega)
  have htt := eadd t (by omega) (by omega)
  have hsum : (c : ℚ) + ((t - c : Int) : ℚ) = (t : ℚ) := by push_cast; ring
  constructor
  · simp only [interpRounded]
    generalize rdiv ((s : ℚ) / ((25 : Int) : ℚ)) = p at hp0 hp1
    rcases le_total c t with hct | hct
    · have hd0 : (0 : ℚ) ≤ ((t - c : Int) : ℚ) := by exact_mod_cast (by omega : 0 ≤ t - c)
      have hx0 : 0 ≤ ((t - c : Int) : ℚ) * p := mul_nonneg hd0 hp0
      have hx1 : ((t - c : Int) : ℚ) * p ≤ ((t - c : Int) : ℚ) := by nlinarith
      have hm0 : 0 ≤ rmul (((t - c : Int) : ℚ) * p) := by rw [← m0]; exact mmul hx0
      have hm1 : rmul (((t - c : Int) : ℚ) * p) ≤ ((t - c : Int) : ℚ) :=
        (mmul hx1).trans hd.le
      have hv0 : (c : ℚ) ≤ radd ((c : ℚ) + rmul (((t - c : Int) : ℚ) * p)) :=
        hcc.symm.le.trans (madd (by linarith))
      have hv1 : radd ((c : ℚ) + rmul (((t - c : Int) : ℚ) * p)) ≤ (t : ℚ) :=
        (madd (by linarith)).trans htt.le
      rw [min_eq_left hct, max_eq_right hct]
      exact truncQ_between _ c t hc.1 hv0 hv1
    · have hd0 : ((t - c : Int) : ℚ) ≤ 0 := by exact_mod_cast (by omega : t - c ≤ 0)
      have hx0 : ((t - c : Int) : ℚ) * p ≤ 0 := mul_nonpos_of_nonpos_of_nonneg hd0 hp0
      have hx1 : ((t - c : Int) : ℚ) ≤ ((t - c : Int) : ℚ) * p := by nlinarith
      have hm0 : rmul (((t - c : Int) : ℚ) * p) ≤ 0 := by rw [← m0]; exact mmul hx0
      have hm1 : ((t - c : Int) : ℚ) ≤ rmul (((t - c : Int) : ℚ) * p) :=
        hd.symm.le.trans (mmul hx1)
      have hv0 : radd ((c : ℚ) + rmul (((t - c : Int) : ℚ) * p)) ≤ (c : ℚ) :=
        (madd (by linarith)).trans hcc.le
      have hv1 : (t : ℚ) ≤ radd ((c : ℚ) + rmul (((t - c : Int) : ℚ) * p)) :=
        htt.symm.le.trans (madd (by linarith))
      rw [min_eq_right hct, max_eq_left hct]
      exact truncQ_between _ t c ht.1 hv1 hv0
  · intro h25
    subst h25
    have hone : (((25 : Int) : ℚ) / ((25 : Int) : ℚ)) = 1 := by norm_num
    simp only [interpRounded, hone, e1, mul_one, hd, hsum, htt]
    have h := truncQ_between (t : ℚ) t t ht.1 le_rfl le_rfl
    omega

theorem monotoneExact_id : MonotoneExact (fun x => x) :=
  ⟨fun _ _ h => h, fun _ _ _ => rfl⟩

theorem truncQ_neg (q : ℚ) : truncQ (-q) = -truncQ q := by
  simp only [truncQ, Rat.num_neg_eq_neg_num, Rat.den_neg_eq_den, Int.neg_tdiv]

theorem truncQ_intCast_div (a : Int) (b : Nat) :
    truncQ ((a : ℚ) / (b : ℚ)) = Int.tdiv a b := by
  rcases le_total 0 a with h | h
  · have hq : (0 : ℚ) ≤ (a : ℚ) / (b : ℚ) :=
      div_nonneg (by exact_mod_cast h) (by exact_mod_cast Nat.zero_le b)
    rw [truncQ_of_nonneg _ hq, Rat.floor_intCast_div_natCast,
      Int.tdiv_eq_ediv h (Int.ofNat_nonneg _)]
  · have hq : (0 : ℚ) ≤ ((-a : Int) : ℚ) / (b : ℚ) :=
      div_nonneg (by exact_mod_cast (by omega : 0 ≤ -a)) (by exact_mod_cast Nat.zero_le b)
    have he : (a : ℚ) / (b : ℚ) = -(((-a : Int) : ℚ) / (b : ℚ)) := by
      push_cast
      ring
    rw [he, truncQ_neg, truncQ_of_nonneg _ hq, Rat.floor_intCast_div_natCast,
      ← Int.tdiv_eq_ediv (by omega) (Int.ofNat_nonneg _), Int.neg_tdiv, neg_neg]

theorem exactOps_interp_rounded (c t s : Int) :
    exactOps.interp c t s 25 = interpRounded (fun x => x) (fun x => x) (fun x => x) c t s 25 := by
  have he : (c : ℚ) + ((t - c : Int) : ℚ) * ((s : ℚ) / ((25 : Int) : ℚ))
      = ((c * 25 + (t - c) * s : Int) : ℚ) / ((25 : Nat) : ℚ) := by
    push_cast
    ring
  simp only [interpRounded, he, truncQ_intCast_div]
  rfl

/-- C17: for every start angle `c` and target angle `t` in [0,180] (the current
and target angle of a servo in a state with its posture in range) and every
step `s` in 1..25, the angle written to that servo at step `s` of
`moveAllSmooth`, the `int` value of `c + (t - c) * (s/25)`, lies between `c` and
`t` inclusive and so in [0,180], and at `s = 25` it equals `t`. The
floating-point expression is read with each operation followed by a rounding
that is monotone and exact on the integers up to 180 in absolute value. -/
theorem interpolated_angle_between (fp : FloatOps) (rdiv rmul radd : ℚ → ℚ)
    (hdiv : MonotoneExact rdiv) (hmul : MonotoneExact rmul) (hadd : MonotoneExact radd)
    (st : HandState) (hrange : PostureInRange st) (s : Nat) (hs : 1 ≤ s ∧ s ≤ 25)
    (sleepTime : Int)
    (hfp : ∀ sv, fp.interp (currentAngle sv st) (targetAngle sv st) s MOVE_STEPS
      = interpRounded rdiv rmul radd (currentAngle sv st) (targetAngle sv st) s MOVE_STEPS) :
    (∀ sv, Effect.write sv (fp.interp (currentAngle sv st) (targetAngle sv st) s 25)
      ∈ moveStep fp st sleepTime s) ∧
    (∀ sv a, Effect.write sv a ∈ moveStep fp st sleepTime s →
      (min (currentAngle sv st) (targetAngle sv st) ≤ a ∧
        a ≤ max (currentAngle sv st) (targetAngle sv st)) ∧
      (0 ≤ a ∧ a ≤ 180) ∧
      (s = 25 → a = targetAngle sv st)) := by
  have hcur : ∀ sv, 0 ≤ currentAngle sv st ∧ currentAngle sv st ≤ 180 := by
    intro sv
    obtain ⟨h1, h2, h3, _, _, _⟩ := hrange
    cases sv
    · exact h1
    · exact h2
    · exact h3
  have htar : ∀ sv, 0 ≤ targetAngle sv st ∧ targetAngle sv st ≤ 180 := by
    intro sv
    obtain ⟨_, _, _, h4, h5, h6⟩ := hrange
    cases sv
    · exact h4
    · exact h5
    · exact h6
  have hM : MOVE_STEPS = 25 := rfl
  have key : ∀ sv,
      (min (currentAngle sv st) (targetAngle sv st)
          ≤ fp.interp (currentAngle sv st) (targetAngle sv st) s 25 ∧
        fp.interp (currentAngle sv st) (targetAngle sv st) s 25
          ≤ max (currentAngle sv st) (targetAngle sv st)) ∧
      (s = 25 → fp.interp (currentAngle sv st) (targetAngle sv st) s 25 = targetAngle sv st) := by
    intro sv
    have h := interpRounded_between rdiv rmul radd hdiv hmul hadd (currentAngle sv st)
      (targetAngle sv st) (hcur sv) (htar sv) (s : Int) ⟨by omega, by omega⟩
    have hf := hfp sv
    rw [hM] at hf
    rw [hf]
    exact ⟨h.1, fun h25 => h.2 (by omega)⟩
  constructor
  · intro sv
    cases sv <;> simp [moveStep, currentAngle, targetAngle, hM]
  · intro sv a hmem
    have ha : a = fp.interp (currentAngle sv st) (targetAngle sv st) s 25 := by
      simp only [moveStep, List.mem_cons, List.mem_singleton, List.not_mem_nil, or_false,
        Effect.write.injEq, hM] at hmem
      rcases hmem with h | h | h | h
      · obtain ⟨h1, h2⟩ := h
        subst h1
        exact h2
      · obtain ⟨h1, h2⟩ := h
        subst h1
        exact h2
      · obtain ⟨h1, h2⟩ := h
        subst h1
        exact h2
      · cases h
    obtain ⟨⟨k1, k2⟩, k3⟩ := key sv
    have c1 := hcur sv
    have t1 := htar sv
    rw [ha]
    refine ⟨⟨k1, k2⟩, ⟨?_, ?_⟩, k3⟩
    · exact le_trans (le_min c1.1 t1.1) k1
    · exact le_trans k2 (max_le c1.2 t1.2)

theorem interpolated_angle_between_witness :
    PostureInRange graspPending ∧ (1 ≤ 7 ∧ 7 ≤ 25) ∧
    Effect.write Servo.servoIndex 146 ∈ moveStep exactOps graspPending 20 7 ∧
    ((min (currentAngle Servo.servoIndex graspPending)
          (targetAngle Servo.servoIndex graspPending) ≤ 146 ∧
        146 ≤ max (currentAngle Servo.servoIndex graspPending)
          (targetAngle Servo.servoIndex graspPending)) ∧
      ((0 : Int) ≤ 146 ∧ (146 : Int) ≤ 180) ∧
      (7 = 25 → 146 = targetAngle Servo.servoIndex graspPending)) :=
  ⟨by decide, by decide, by decide,
    (interpolated_angle_between exactOps (fun x => x) (fun x => x) (fun x => x)
      monotoneExact_id monotoneExact_id monotoneExact_id graspPending (by decide) 7
      (by decide) 20 (fun _ => exactOps_interp_rounded _ _ _)).2 Servo.servoIndex 146
      (by decide)⟩

/-! ## Battery percent on in-range samples -/

theorem nearlyExact_id : NearlyExact (fun x => x) := by
  refine ⟨rfl, fun x h1 _ => ?_⟩
  simp only [sub_self, abs_zero]
  have : (0 : ℚ) ≤ x := le_trans (by norm_num) h1
  positivity

theorem nearlyExact_bounds (r : ℚ → ℚ) (hr : NearlyExact r) (x : ℚ)
    (hlo : 1 / 10000 ≤ x) (hhi : x ≤ 100000) :
    x - x / 10000 ≤ r x ∧ r x ≤ x + x / 10000 := by
  have h := abs_le.1 (hr.2 x hlo hhi)
  constructor <;> linarith [h.1, h.2]

theorem truncQ_lt (q : ℚ) (n : Int) (h0 : 0 ≤ q) (hn : q < (n : ℚ)) :
    0 ≤ truncQ q ∧ truncQ q < n := by
  rw [truncQ_of_nonneg q h0]
  exact ⟨Int.floor_nonneg.2 h0, Int.floor_lt.2 hn⟩

theorem centivoltsRounded_range (c33 : ℚ) (rmulD rdivD rcvt rmulF : ℚ → ℚ)
    (hc : |c33 - 33 / 10| ≤ 33 / 100000)
    (hmulD : NearlyExact rmulD) (hdivD : NearlyExact rdivD) (hcvt : NearlyExact rcvt)
    (hmulF : NearlyExact rmulF) (raw : Int) (hraw : 0 ≤ raw ∧ raw ≤ 4095) :
    0 ≤ centivoltsRounded c33 rmulD rdivD rcvt rmulF raw ∧
    centivoltsRounded c33 rmulD rdivD rcvt rmulF raw ≤ 330 := by
  have hc' := abs_le.1 hc
  simp only [centivoltsRounded]
  rcases eq_or_lt_of_le hraw.1 with h0 | hpos
  · subst h0
    have hz : truncQ 0 = 0 := by decide
    simp [hmulD.1, hdivD.1, hcvt.1, hmulF.1, hz]
  · have hr1 : (1 : ℚ) ≤ (raw : ℚ) := by exact_mod_cast (by omega : 1 ≤ raw)
    have hr2 : (raw : ℚ) ≤ 4095 := by exact_mod_cast hraw.2
    have a0 : (3 : ℚ) ≤ (raw : ℚ) * c33 := by nlinarith [hc'.1]
    have a1 : (raw : ℚ) * c33 ≤ 13515 := by nlinarith [hc'.2]
    obtain ⟨b0, b1⟩ :=
      nearlyExact_bounds rmulD hmulD ((raw : ℚ) * c33) (by linarith) (by linarith)
    generalize rmulD ((raw : ℚ) * c33) = x1 at b0 b1
    have c0 : (7 / 10000 : ℚ) ≤ x1 / 4095 := by
      rw [le_div_iff₀ (by norm_num)]
      linarith
    have c1 : x1 / 4095 ≤ 33009 / 10000 := by
      rw [div_le_iff₀ (by norm_num)]
      linarith
    obtain ⟨d0, d1⟩ := nearlyExact_bounds rdivD hdivD (x1 / 4095) (by linarith) (by linarith)
    generalize rdivD (x1 / 4095) = x3 at d0 d1
    obtain ⟨e0, e1⟩ := nearlyExact_bounds rcvt hcvt x3 (by linarith) (by linarith)
    generalize rcvt x3 = x4 at e0 e1
    obtain ⟨f0, f1⟩ := nearlyExact_bounds rmulF hmulF (x4 * 100) (by linarith) (by linarith)
    generalize rmulF (x4 * 100) = x6 at f0 f1
    have g := truncQ_lt x6 331 (by linarith) (by push_cast; linarith)
    omega

theorem readBatteryPercent_of_low (fp : FloatOps) (raw : Int)
    (h0 : 0 ≤ fp.centivolts raw) (h1 : fp.centivolts raw ≤ 330) :
    arduinoMap (fp.centivolts raw) 330 420 0 100 ≤ 0 ∧ readBatteryPercent fp raw = 0 := by
  have hb := arduinoMap_band (fp.centivolts raw) (by omega) (by omega)
  have hn : Int.tdiv ((fp.centivolts raw - 330) * 100) 90 ≤ 0 := by
    have hneg : Int.tdiv ((fp.centivolts raw - 330) * 100) 90
        = -(Int.tdiv (-((fp.centivolts raw - 330) * 100)) 90) := by
      rw [Int.neg_tdiv, neg_neg]
    rw [hneg, Int.tdiv_eq_ediv (by omega) (by decide)]
    omega
  refine ⟨by rw [hb]; exact hn, ?_⟩
  simp only [readBatteryPercent, hb]
  split_ifs <;> omega

theorem exactOps_centivolts_rounded (raw : Int) :
    exactOps.centivolts raw
      = centivoltsRounded (33 / 10) (fun x => x) (fun x => x) (fun x => x) (fun x => x) raw := by
  have he : (raw : ℚ) * (33 / 10) / 4095 * 100 = ((raw * 330 : Int) : ℚ) / ((4095 : Nat) : ℚ) := by
    push_cast
    ring
  simp only [centivoltsRounded, he, truncQ_intCast_div]
  rfl

/-- C20: for every raw analog sample in the ADC range 0..4095,
`readBatteryPercent` returns 0: the voltage is computed against a 3.3 V full
scale, so the `int` value of `voltage * 100` lies in 0..330, the lower end of the
330..420 band, the mapped value is never positive before clamping, and the
telemetry payload produced from the sample is "BAT:0". The floating-point
expression is read with the constant 3.3 and every operation carrying a relative
error of at most 1/10000. -/
theorem readBatteryPercent_zero_in_adc_range (fp : FloatOps) (c33 : ℚ)
    (rmulD rdivD rcvt rmulF : ℚ → ℚ) (hc : |c33 - 33 / 10| ≤ 33 / 100000)
    (hmulD : NearlyExact rmulD) (hdivD : NearlyExact rdivD) (hcvt : NearlyExact rcvt)
    (hmulF : NearlyExact rmulF) (raw : Int) (hraw : 0 ≤ raw ∧ raw ≤ 4095)
    (hfp : fp.centivolts raw = centivoltsRounded c33 rmulD rdivD rcvt rmulF raw) :
    (0 ≤ fp.centivolts raw ∧ fp.centivolts raw ≤ 330) ∧
    arduinoMap (fp.centivolts raw) 330 420 0 100 ≤ 0 ∧
    readBatteryPercent fp raw = 0 ∧
    (∀ st : HandState, st.deviceConnected = true → st.batteryCharSet = true →
      notifications (sendBattery fp raw st).trace = notifications st.trace ++ ["BAT:0"]) := by
  have hcv := centivoltsRounded_range c33 rmulD rdivD rcvt rmulF hc hmulD hdivD hcvt hmulF
    raw hraw
  rw [← hfp] at hcv
  obtain ⟨hmap, hzero⟩ := readBatteryPercent_of_low fp raw hcv.1 hcv.2
  refine ⟨hcv, hmap, hzero, ?_⟩
  intro st hconn hchar
  have ht : "BAT:" ++ toString (0 : Int) = "BAT:0" := by decide
  simp [sendBattery, hconn, hchar, hzero, emit, notifications, List.filterMap_append, ht]

theorem readBatteryPercent_zero_in_adc_range_witness :
    ((0 : Int) ≤ 4095 ∧ (4095 : Int) ≤ 4095) ∧
    exactOps.centivolts 4095 = 330 ∧
    readBatteryPercent exactOps 4095 = 0 :=
  ⟨by decide, by decide,
    (readBatteryPercent_zero_in_adc_range exactOps (33 / 10) (fun x => x) (fun x => x)
      (fun x => x) (fun x => x) (by norm_num) nearlyExact_id nearlyExact_id nearlyExact_id
      nearlyExact_id 4095 (by decide) (exactOps_centivolts_rounded 4095)).2.2.1⟩

end FuelGauge
